import Mathlib

/-!
# processes.cpp : the `ps aux | grep <command> | wc -l` process chain

A shallow embedding of `main` from `Program1/Cpp/processes.cpp`.

* A process's descriptor table is a list indexed by descriptor number; an entry is the
  open file the descriptor refers to, or `none` when the descriptor is closed.
* `close`, `dup2` and `pipe` act on that table the way POSIX specifies (`pipe` hands out
  the two lowest unused descriptors, `dup2 old new` with `old = new` leaves the table alone,
  `close`/`dup2` on a descriptor that is not open fail with `EBADF` and change nothing).
* Whether a `fork`, `pipe`, `dup2` or `execlp` call succeeds is decided by the environment;
  an `Oracle` fixes the answer for every call site of `main`.
* `fork` copies the caller's descriptor table and its `fds` array into the new process.
  `main` therefore yields one record per process of the tree, each with the events the
  process performed (in program order), its descriptor table when it stopped running
  `main`'s code, and how it stopped (exit status, or the program image it exec'd).
-/

namespace Processes

/-! ## Descriptor tables -/

/-- An open file a descriptor can refer to: something the supervisor was started with, or
one endpoint of the pipe stored in `fds[i]`. -/
inductive File where
  | ext (id : Nat)
  | pipeRead (i : Nat)
  | pipeWrite (i : Nat)
  deriving DecidableEq, Repr

/-- Descriptor table: entry `d` is the open file behind descriptor `d`, `none` if closed. -/
abbrev FdTable := List (Option File)

/-- The open file behind descriptor `d` (`none`: `d` is not an open descriptor). -/
def lookup : FdTable → Nat → Option File
  | [], _ => none
  | x :: _, 0 => x
  | _ :: t, d + 1 => lookup t d

/-- Overwrite entry `d` of the table (the table grows when `d` is past its end). -/
def put : FdTable → Nat → Option File → FdTable
  | [], 0, v => [v]
  | [], d + 1, v => none :: put [] d v
  | _ :: t, 0, v => v :: t
  | x :: t, d + 1, v => x :: put t d v

/-- The lowest descriptor number that is not open. -/
def lowestFree : FdTable → Nat
  | [] => 0
  | none :: _ => 0
  | some _ :: t => lowestFree t + 1

/-- The table the supervisor is started with: entry `d` of `init` names the file open on
descriptor `d`, if any. None of them is an endpoint of a pipe made by `main`. -/
def initTable (init : List (Option Nat)) : FdTable :=
  init.map (Option.map File.ext)

def STDIN_FILENO : Nat := 0
def STDOUT_FILENO : Nat := 1

/-! ## Events, call sites, processes -/

/-- What a process does, in program order. -/
inductive Event where
  /-- The statement `cerr << msg << endl` -/
  | cerr (msg : String)
  /-- The statement `cout << msg << endl` -/
  | cout (msg : String)
  /-- The call `perror(msg)` -/
  | perror (msg : String)
  /-- The call `pipe(fds[i])`; `res` is the pair stored in `fds[i]`, `none` when the call failed -/
  | pipe (i : Nat) (res : Option (Nat × Nat))
  /-- The call `fork()` as seen by the caller; `ok = false` when it returned a negative value -/
  | fork (ok : Bool)
  /-- The call `close(fd)`; `was` is the file `fd` referred to (`none`: `fd` was not open) -/
  | close (fd : Nat) (was : Option File)
  /-- The call `dup2(old, new)`; `src` is the file `old` referred to -/
  | dup2 (old new : Nat) (src : Option File) (ok : Bool)
  /-- An entry of `fds` was read before any `pipe` call stored into it -/
  | uninit (i j : Nat)
  /-- The call `execlp(file, argv..., NULL)`; `ok = false` when the call returned -/
  | exec (file : String) (argv : List String) (ok : Bool)
  /-- The call `wait(NULL)` returned -/
  | wait
  /-- The call `exit(code)` -/
  | exit (code : Int)
  /-- The statement `return code` from `main` -/
  | ret (code : Int)
  deriving DecidableEq, Repr

/-- The call sites of `main` whose outcome the environment decides. -/
inductive Call where
  /-- Line 58, `fork()` in the parent -/
  | fork1
  /-- Line 62, `pipe(fds[0])` in the child -/
  | pipe0
  /-- Line 67, `fork()` in the child -/
  | fork2
  /-- Line 72, `pipe(fds[1])` in the grandchild -/
  | pipe1
  /-- Line 77, `fork()` in the grandchild -/
  | fork3
  /-- Line 85, `dup2(fds[1][1], STDOUT_FILENO)` in the great-grandchild -/
  | dupPsOut
  /-- Line 88, `execlp("ps", ...)` -/
  | execPs
  /-- Line 94, `dup2(fds[1][0], STDIN_FILENO)` in the grandchild -/
  | dupGrepIn
  /-- Line 97, `dup2(fds[0][1], STDOUT_FILENO)` in the grandchild -/
  | dupGrepOut
  /-- Line 99, `execlp("grep", ...)` -/
  | execGrep
  /-- Line 106, `dup2(fds[0][0], STDIN_FILENO)` in the child -/
  | dupWcIn
  /-- Line 108, `execlp("wc", ...)` -/
  | execWc
  deriving DecidableEq, Repr

/-- For each call site, whether the call succeeds. -/
abbrev Oracle := Call → Bool

/-- The processes of the tree, named as the comments of `main` name them. -/
inductive Role where
  | parent
  | child
  | grandchild
  | greatGrandchild
  deriving DecidableEq, Repr

/-- How a process stops running `main`'s code. -/
inductive Outcome where
  /-- The process terminated with this exit status -/
  | exited (status : Nat)
  /-- The process image was replaced by `file`, started with argument vector `argv` -/
  | image (file : String) (argv : List String)
  deriving DecidableEq, Repr

/-- The state of one process while it runs `main`: its descriptor table, the two rows of
the local array `fds` (`none` until a `pipe` call stores into the row), and the events it
has performed so far. -/
structure PState where
  fdt : FdTable
  fds0 : Option (Nat × Nat)
  fds1 : Option (Nat × Nat)
  trace : List Event
  deriving DecidableEq, Repr

/-- One process of the tree: who it is, which process forked it, its state when it stopped
running `main`, and how it stopped. -/
structure Proc where
  role : Role
  forkedBy : Option Role
  st : PState
  outcome : Outcome
  deriving DecidableEq, Repr

/-- The exit status the parent of a process observes for `exit(code)` / `return code`. -/
def exitStatus (code : Int) : Nat := (code % 256).toNat

namespace PState

def emit (s : PState) (e : Event) : PState := { s with trace := s.trace ++ [e] }

/-- The value of `fds[i][j]`, `none` while row `i` is uninitialised. -/
def fd (s : PState) (i j : Nat) : Option Nat :=
  let row := if i = 0 then s.fds0 else s.fds1
  row.map (fun p => if j = 0 then p.1 else p.2)

/-- The call `close(fds[i][j])`. -/
def close (s : PState) (i j : Nat) : PState :=
  match s.fd i j with
  | none => s.emit (.uninit i j)
  | some d =>
    let was := lookup s.fdt d
    let s1 := s.emit (.close d was)
    match was with
    | none => s1
    | some _ => { s1 with fdt := put s.fdt d none }

/-- The call `dup2(fds[i][j], new)`; `allowed` is the environment's answer for this call site. -/
def dup2 (s : PState) (allowed : Bool) (i j : Nat) (new : Nat) : PState :=
  match s.fd i j with
  | none => s.emit (.uninit i j)
  | some old =>
    match lookup s.fdt old with
    | none => s.emit (.dup2 old new none false)
    | some f =>
      if allowed then
        let s1 := s.emit (.dup2 old new (some f) true)
        if old = new then s1 else { s1 with fdt := put s.fdt new (some f) }
      else s.emit (.dup2 old new (some f) false)

/-- The call `pipe(fds[i])`: on success the two lowest unused descriptors are opened on the read
and the write endpoint of a new pipe and stored in `fds[i][0]`, `fds[i][1]`. -/
def pipe (s : PState) (ok : Bool) (i : Nat) : PState :=
  if ok then
    let r := lowestFree s.fdt
    let t1 := put s.fdt r (some (.pipeRead i))
    let w := lowestFree t1
    let t2 := put t1 w (some (.pipeWrite i))
    let s1 := { s with fdt := t2, trace := s.trace ++ [Event.pipe i (some (r, w))] }
    if i = 0 then { s1 with fds0 := some (r, w) } else { s1 with fds1 := some (r, w) }
  else s.emit (.pipe i none)

/-- The state a freshly forked process starts with: a copy of the caller's descriptor
table and variables, and no events of its own yet. -/
def forked (s : PState) : PState := { s with trace := [] }

/-- The call `exit(code)`. -/
def exit (s : PState) (role : Role) (by_ : Option Role) (code : Int) : Proc :=
  ⟨role, by_, s.emit (Event.exit code), Outcome.exited (exitStatus code)⟩

/-- The statement `return code` from `main`. -/
def ret (s : PState) (role : Role) (by_ : Option Role) (code : Int) : Proc :=
  ⟨role, by_, s.emit (Event.ret code), Outcome.exited (exitStatus code)⟩

/-- The sequence `execlp(file, argv..., NULL); perror(msg); exit(-1);` -/
def execlp (s : PState) (ok : Bool) (role : Role) (by_ : Option Role)
    (file : String) (argv : List String) (msg : String) : Proc :=
  if ok then ⟨role, by_, s.emit (Event.exec file argv true), Outcome.image file argv⟩
  else ((s.emit (Event.exec file argv false)).emit (Event.perror msg)).exit role by_ (-1)

end PState

/-! ## `main` -/

/-- Lines 81-90: the great-grandchild. -/
def greatGrandchild (o : Oracle) (s : PState) : Proc :=
  let s := s.close 0 0
  let s := s.close 0 1
  let s := s.close 1 0
  let s := s.dup2 (o .dupPsOut) 1 1 STDOUT_FILENO
  let s := s.close 1 1
  s.execlp (o .execPs) .greatGrandchild (some .grandchild) "ps" ["ps", "aux"] "execlp ps failed"

/-- Lines 71-102: the grandchild. `argv` has two entries here, so `argv[1]` exists. -/
def grandchild (argv : List String) (o : Oracle) (s : PState) : List Proc :=
  let s := s.pipe (o .pipe1) 1
  if !o .pipe1 then
    [(s.emit (.perror "pipe error")).exit .grandchild (some .child) (-1)]
  else if !o .fork3 then
    [((s.emit (.fork false)).emit (.perror "fork error")).exit .grandchild (some .child) (-1)]
  else
    let g := s.forked
    let s := s.emit (.fork true)
    let s := s.close 1 1
    let s := s.dup2 (o .dupGrepIn) 1 0 STDIN_FILENO
    let s := s.close 1 0
    let s := s.close 0 0
    let s := s.dup2 (o .dupGrepOut) 0 1 STDOUT_FILENO
    let s := s.close 0 1
    s.execlp (o .execGrep) .grandchild (some .child) "grep" ["grep", argv.getD 1 ""]
        "execlp grep failed"
      :: [greatGrandchild o g]

/-- Lines 61-111: the child. -/
def child (argv : List String) (o : Oracle) (s : PState) : List Proc :=
  let s := s.pipe (o .pipe0) 0
  if !o .pipe0 then
    [(s.emit (.perror "pipe error")).exit .child (some .parent) (-1)]
  else if !o .fork2 then
    [((s.emit (.fork false)).emit (.perror "fork error")).exit .child (some .parent) (-1)]
  else
    let g := s.forked
    let s := s.emit (.fork true)
    let s := s.close 0 1
    let s := s.dup2 (o .dupWcIn) 0 0 STDIN_FILENO
    let s := s.close 0 0
    s.execlp (o .execWc) .child (some .parent) "wc" ["wc", "-l"] "execlp wc failed"
      :: grandchild argv o g

/-- The program: `argv` is the argument vector (`argc` is its length), `o` the outcome of
every environment-decided call, `init` the descriptors the supervisor is started with.
The result lists the processes of the tree, the supervisor first. -/
def main (argv : List String) (o : Oracle) (init : List (Option Nat)) : List Proc :=
  let s : PState := ⟨initTable init, none, none, []⟩
  if argv.length ≠ 2 then
    [(s.emit (.cerr "Usage: processes command")).exit .parent none (-1)]
  else if !o .fork1 then
    -- line 59: `perror` only; control reaches `return 0`
    [((s.emit (.fork false)).emit (.perror "fork error")).ret .parent none 0]
  else
    (((s.emit (.fork true)).emit .wait).emit (.cout "commands completed")).ret .parent none 0
      :: child argv o s.forked

/-! ## Predicates on events and runs -/

/-- The event is a descriptor operation on an entry of `fds`: a `close`, a `dup2`, or a
read of an uninitialised entry. -/
def Event.isFdOp : Event → Bool
  | .close _ _ => true
  | .dup2 _ _ _ _ => true
  | .uninit _ _ => true
  | _ => false

/-- The event belongs to pipeline set-up: a `pipe`, a `fork`, or a descriptor operation. -/
def Event.isSetup : Event → Bool
  | .pipe _ _ => true
  | .fork _ => true
  | e => e.isFdOp

/-- Every event the process has performed satisfies `Q`. -/
def TraceAll (Q : Event → Prop) (s : PState) : Prop := ∀ e ∈ s.trace, Q e

/-- The oracle under which every environment-decided call succeeds. -/
def allSucceed : Oracle := fun _ => true

/-- The arguments a program image was started with: its argument vector without the
conventional `argv[0]`. -/
def Outcome.arguments : Outcome → Option (List String)
  | .image _ argv => some argv.tail
  | .exited _ => none

/-- Lines 82-86: the descriptor operations of the great-grandchild before its `execlp`. -/
def greatGrandchildWiring (o : Oracle) (s : PState) : PState :=
  ((((s.close 0 0).close 0 1).close 1 0).dup2 (o .dupPsOut) 1 1 STDOUT_FILENO).close 1 1

/-- Lines 93-98: the descriptor operations of the grandchild before its `execlp`. -/
def grandchildWiring (o : Oracle) (s : PState) : PState :=
  (((((s.close 1 1).dup2 (o .dupGrepIn) 1 0 STDIN_FILENO).close 1 0).close 0 0).dup2
    (o .dupGrepOut) 0 1 STDOUT_FILENO).close 0 1

/-- Lines 105-107: the descriptor operations of the child before its `execlp`. -/
def childWiring (o : Oracle) (s : PState) : PState :=
  ((s.close 0 1).dup2 (o .dupWcIn) 0 0 STDIN_FILENO).close 0 0

/-- The event is not a message on the error stream written with `cerr`. -/
def Event.notCerr (e : Event) : Prop := ∀ msg, e ≠ .cerr msg

/-- The state in which the supervisor enters `main`. -/
def start (init : List (Option Nat)) : PState := ⟨initTable init, none, none, []⟩

/-- The child right after its `pipe(fds[0])` succeeded (line 62). -/
def childStart (init : List (Option Nat)) : PState := (start init).forked.pipe true 0

/-- The grandchild right after its `pipe(fds[1])` succeeded (line 72). -/
def grandchildStart (init : List (Option Nat)) : PState := (childStart init).forked.pipe true 1

/-- The program file of the image a process became, if it exec'd. -/
def Outcome.file : Outcome → Option String
  | .image f _ => some f
  | .exited _ => none

/-- The oracle under which every `fork` and `pipe` succeeds and every `execlp` fails. -/
def execsFail : Oracle := fun c => decide (c ≠ .execPs ∧ c ≠ .execGrep ∧ c ≠ .execWc)

/-- The pair of descriptors a successful `pipe(fds[i])` stores when the caller's table is
`t`: the lowest unused descriptor, and the lowest unused one once that is taken. -/
def pipeFds (t : FdTable) (i : Nat) : Nat × Nat :=
  (lowestFree t, lowestFree (put t (lowestFree t) (some (.pipeRead i))))

/-- The caller's table after a successful `pipe(fds[i])`. -/
def pipeTable (t : FdTable) (i : Nat) : FdTable :=
  put (put t (pipeFds t i).1 (some (.pipeRead i))) (pipeFds t i).2 (some (.pipeWrite i))

/-- The open file is an endpoint of one of the pipes made by `main`. -/
def File.isPipeEnd : File → Bool
  | .pipeRead _ => true
  | .pipeWrite _ => true
  | .ext _ => false

/-- The event is not a read of an uninitialised `fds` entry, and if it is a `close` or a
`dup2` its descriptor argument was open and referred to a pipe endpoint. -/
def Event.onHeldPipeEnd : Event → Bool
  | .uninit _ _ => false
  | .close _ was => (was.map File.isPipeEnd).getD false
  | .dup2 _ _ src _ => (src.map File.isPipeEnd).getD false
  | _ => true

/-- The value of `fds[0][0]` once the child's `pipe(fds[0])` has succeeded. -/
def fd00 (init : List (Option Nat)) : Nat := (pipeFds (initTable init) 0).1

/-- The value of `fds[0][1]` once the child's `pipe(fds[0])` has succeeded. -/
def fd01 (init : List (Option Nat)) : Nat := (pipeFds (initTable init) 0).2

/-- The value of `fds[1][0]` once the grandchild's `pipe(fds[1])` has succeeded. -/
def fd10 (init : List (Option Nat)) : Nat := (pipeFds (pipeTable (initTable init) 0) 1).1

/-- The value of `fds[1][1]` once the grandchild's `pipe(fds[1])` has succeeded. -/
def fd11 (init : List (Option Nat)) : Nat := (pipeFds (pipeTable (initTable init) 0) 1).2

/-- Every event of the trace acts on held pipe endpoints (see `Event.onHeldPipeEnd`). -/
def heldOnly (s : PState) : Prop := TraceAll (fun e => e.onHeldPipeEnd = true) s

/-- If the event is an `execlp` call made by the process in role `r`, it is one of the
three calls of `main`: `ps` with argument vector `ps aux` in the great-grandchild, `grep`
with `grep t` in the grandchild, `wc` with `wc -l` in the child. -/
def Event.execArgsOk (t : String) (r : Role) (e : Event) : Prop :=
  ∀ f a ok, e = .exec f a ok →
    (r = .greatGrandchild ∧ f = "ps" ∧ a = ["ps", "aux"]) ∨
    (r = .grandchild ∧ f = "grep" ∧ a = ["grep", t]) ∨
    (r = .child ∧ f = "wc" ∧ a = ["wc", "-l"])

/-- If the process became `ps`, `grep` or `wc`, it was started with the one argument
`aux`, `t`, `-l` respectively. -/
def Outcome.argsOk (t : String) (oc : Outcome) : Prop :=
  (oc.file = some "ps" → oc.arguments = some ["aux"]) ∧
  (oc.file = some "grep" → oc.arguments = some [t]) ∧
  (oc.file = some "wc" → oc.arguments = some ["-l"])

/-! ## Facts about descriptor tables -/

theorem lookup_put (t : FdTable) (d : Nat) (v : Option File) (m : Nat) :
    lookup (put t d v) m = if m = d then v else lookup t m := by
  induction t generalizing d m with
  | nil =>
    induction d generalizing m with
    | zero => cases m <;> simp [put, lookup]
    | succ d ih => cases m <;> simp [put, lookup, ih]
  | cons x t ih =>
    cases d <;> cases m <;> simp [put, lookup, ih]

theorem lookup_put_self (t : FdTable) (d : Nat) (v : Option File) :
    lookup (put t d v) d = v := by
  simp [lookup_put]

theorem lookup_put_ne (t : FdTable) (d : Nat) (v : Option File) (m : Nat) (h : m ≠ d) :
    lookup (put t d v) m = lookup t m := by
  simp [lookup_put, h]

theorem lookup_lowestFree (t : FdTable) : lookup t (lowestFree t) = none := by
  induction t with
  | nil => rfl
  | cons x t ih => cases x <;> simp [lowestFree, lookup, ih]

theorem lowestFree_ne_of_open (t : FdTable) (d : Nat) (h : lookup t d ≠ none) :
    lowestFree t ≠ d := by
  intro e
  exact h (e ▸ lookup_lowestFree t)

theorem lowestFree_lt_put (t : FdTable) (f : File) :
    lowestFree t < lowestFree (put t (lowestFree t) (some f)) := by
  induction t with
  | nil => simp [lowestFree, put]
  | cons x t ih => cases x <;> simp [lowestFree, put, ih]

theorem lookup_initTable (init : List (Option Nat)) (d : Nat) :
    lookup (initTable init) d = none ∨ ∃ id, lookup (initTable init) d = some (File.ext id) := by
  induction init generalizing d with
  | nil => left; rfl
  | cons x t ih =>
    cases d with
    | zero => cases x <;> simp [initTable, lookup]
    | succ d => simpa [initTable, lookup] using ih d

theorem lookup_initTable_ne_pipeRead (init : List (Option Nat)) (d i : Nat) :
    lookup (initTable init) d ≠ some (File.pipeRead i) := by
  rcases lookup_initTable init d with h | ⟨id, h⟩ <;> simp [h]

theorem lookup_initTable_ne_pipeWrite (init : List (Option Nat)) (d i : Nat) :
    lookup (initTable init) d ≠ some (File.pipeWrite i) := by
  rcases lookup_initTable init d with h | ⟨id, h⟩ <;> simp [h]

/-! ## Who forks whom -/

theorem greatGrandchild_role (o : Oracle) (s : PState) :
    (greatGrandchild o s).role = .greatGrandchild ∧
      (greatGrandchild o s).forkedBy = some .grandchild := by
  unfold greatGrandchild PState.execlp PState.exit
  constructor <;> (simp only []; split_ifs <;> rfl)

theorem grandchild_roles (argv : List String) (o : Oracle) (s : PState) :
    ∀ p ∈ grandchild argv o s,
      (p.role = .grandchild ∧ p.forkedBy = some .child) ∨
      (p.role = .greatGrandchild ∧ p.forkedBy = some .grandchild) := by
  intro p hp
  unfold grandchild at hp
  simp only [] at hp
  split_ifs at hp
  · simp [PState.exit] at hp; subst hp; simp
  · simp [PState.exit] at hp; subst hp; simp
  · simp only [List.mem_cons, List.mem_singleton, List.not_mem_nil, or_false] at hp
    rcases hp with h | h
    · left; subst h; unfold PState.execlp PState.exit
      constructor <;> (split_ifs <;> rfl)
    · right; subst h; exact greatGrandchild_role o _

/-! ## Traces -/

theorem traceAll_emit (Q : Event → Prop) (s : PState) (e : Event) :
    TraceAll Q (s.emit e) ↔ TraceAll Q s ∧ Q e := by
  simp [TraceAll, PState.emit, or_imp, forall_and]

theorem traceAll_forked (Q : Event → Prop) (s : PState) : TraceAll Q s.forked := by
  simp [TraceAll, PState.forked]

theorem traceAll_close (Q : Event → Prop) (hQ : ∀ e, e.isFdOp = true → Q e) (s : PState)
    (i j : Nat) (h : TraceAll Q s) : TraceAll Q (s.close i j) := by
  unfold PState.close
  split
  · exact (traceAll_emit Q s _).2 ⟨h, hQ _ rfl⟩
  · simp only []
    split
    · exact (traceAll_emit Q s _).2 ⟨h, hQ _ rfl⟩
    · exact (traceAll_emit Q s _).2 ⟨h, hQ _ rfl⟩

theorem traceAll_dup2 (Q : Event → Prop) (hQ : ∀ e, e.isFdOp = true → Q e) (s : PState)
    (a : Bool) (i j new : Nat) (h : TraceAll Q s) : TraceAll Q (s.dup2 a i j new) := by
  unfold PState.dup2
  split
  · exact (traceAll_emit Q s _).2 ⟨h, hQ _ rfl⟩
  · split
    · exact (traceAll_emit Q s _).2 ⟨h, hQ _ rfl⟩
    · split_ifs
      · exact (traceAll_emit Q s _).2 ⟨h, hQ _ rfl⟩
      · exact (traceAll_emit Q s _).2 ⟨h, hQ _ rfl⟩
      · exact (traceAll_emit Q s _).2 ⟨h, hQ _ rfl⟩

theorem traceAll_pipe (Q : Event → Prop) (hQ : ∀ i r, Q (.pipe i r)) (s : PState)
    (ok : Bool) (i : Nat) (h : TraceAll Q s) : TraceAll Q (s.pipe ok i) := by
  unfold PState.pipe
  split_ifs
  · intro e he
    simp only [List.mem_append, List.mem_singleton] at he
    rcases he with he | he
    · exact h e he
    · subst he; exact hQ _ _
  · intro e he
    simp only [List.mem_append, List.mem_singleton] at he
    rcases he with he | he
    · exact h e he
    · subst he; exact hQ _ _
  · exact (traceAll_emit Q s _).2 ⟨h, hQ _ _⟩

/-! ## The stages, split at their `execlp` -/

theorem greatGrandchild_eq (o : Oracle) (s : PState) :
    greatGrandchild o s =
      (greatGrandchildWiring o s).execlp (o .execPs) .greatGrandchild (some .grandchild)
        "ps" ["ps", "aux"] "execlp ps failed" := rfl

theorem grandchild_eq (argv : List String) (o : Oracle) (s : PState)
    (hp : o .pipe1 = true) (hf : o .fork3 = true) :
    grandchild argv o s =
      [(grandchildWiring o ((s.pipe true 1).emit (.fork true))).execlp (o .execGrep)
          .grandchild (some .child) "grep" ["grep", argv.getD 1 ""] "execlp grep failed",
       greatGrandchild o (s.pipe true 1).forked] := by
  simp [grandchild, grandchildWiring, hp, hf]

theorem child_eq (argv : List String) (o : Oracle) (s : PState)
    (hp : o .pipe0 = true) (hf : o .fork2 = true) :
    child argv o s =
      (childWiring o ((s.pipe true 0).emit (.fork true))).execlp (o .execWc)
          .child (some .parent) "wc" ["wc", "-l"] "execlp wc failed"
        :: grandchild argv o (s.pipe true 0).forked := by
  simp [child, childWiring, hp, hf]

theorem traceAll_greatGrandchildWiring (Q : Event → Prop) (hQ : ∀ e, e.isFdOp = true → Q e)
    (o : Oracle) (s : PState) (h : TraceAll Q s) : TraceAll Q (greatGrandchildWiring o s) := by
  unfold greatGrandchildWiring
  exact traceAll_close Q hQ _ _ _ (traceAll_dup2 Q hQ _ _ _ _ _ (traceAll_close Q hQ _ _ _
    (traceAll_close Q hQ _ _ _ (traceAll_close Q hQ _ _ _ h))))

theorem traceAll_grandchildWiring (Q : Event → Prop) (hQ : ∀ e, e.isFdOp = true → Q e)
    (o : Oracle) (s : PState) (h : TraceAll Q s) : TraceAll Q (grandchildWiring o s) := by
  unfold grandchildWiring
  exact traceAll_close Q hQ _ _ _ (traceAll_dup2 Q hQ _ _ _ _ _ (traceAll_close Q hQ _ _ _
    (traceAll_close Q hQ _ _ _ (traceAll_dup2 Q hQ _ _ _ _ _ (traceAll_close Q hQ _ _ _ h)))))

theorem traceAll_childWiring (Q : Event → Prop) (hQ : ∀ e, e.isFdOp = true → Q e)
    (o : Oracle) (s : PState) (h : TraceAll Q s) : TraceAll Q (childWiring o s) := by
  unfold childWiring
  exact traceAll_close Q hQ _ _ _ (traceAll_dup2 Q hQ _ _ _ _ _ (traceAll_close Q hQ _ _ _ h))

theorem traceAll_execlp (Q : Event → Prop) (s : PState) (ok : Bool) (r : Role)
    (b : Option Role) (f : String) (a : List String) (m : String) (h : TraceAll Q s)
    (he : ∀ k, Q (.exec f a k)) (hp : Q (.perror m)) (hx : Q (.exit (-1))) :
    TraceAll Q (s.execlp ok r b f a m).st := by
  unfold PState.execlp PState.exit
  split_ifs
  · exact (traceAll_emit Q s _).2 ⟨h, he _⟩
  · simp only [traceAll_emit]
    exact ⟨⟨⟨h, he _⟩, hp⟩, hx⟩

theorem notCerr_of_isFdOp (e : Event) (h : e.isFdOp = true) : e.notCerr := by
  intro msg hm
  subst hm
  simp [Event.isFdOp] at h

theorem greatGrandchild_notCerr (o : Oracle) (s : PState) (h : TraceAll Event.notCerr s) :
    TraceAll Event.notCerr (greatGrandchild o s).st := by
  rw [greatGrandchild_eq]
  refine traceAll_execlp _ _ _ _ _ _ _ _
    (traceAll_greatGrandchildWiring _ notCerr_of_isFdOp o s h) ?_ ?_ ?_ <;>
    simp [Event.notCerr]

theorem grandchild_notCerr (argv : List String) (o : Oracle) (s : PState)
    (h : TraceAll Event.notCerr s) :
    ∀ p ∈ grandchild argv o s, TraceAll Event.notCerr p.st := by
  have hpipe : ∀ ok, TraceAll Event.notCerr (s.pipe ok 1) := fun ok =>
    traceAll_pipe _ (by simp [Event.notCerr]) s ok 1 h
  intro p hp
  cases h1 : o .pipe1 with
  | false =>
    simp [grandchild, h1, PState.exit] at hp
    subst hp
    simp [traceAll_emit, hpipe, Event.notCerr]
  | true =>
    cases h2 : o .fork3 with
    | false =>
      simp [grandchild, h1, h2, PState.exit] at hp
      subst hp
      simp [traceAll_emit, hpipe, Event.notCerr]
    | true =>
      rw [grandchild_eq argv o s h1 h2] at hp
      simp only [List.mem_cons, List.mem_singleton, List.not_mem_nil, or_false] at hp
      rcases hp with hp | hp
      · subst hp
        refine traceAll_execlp _ _ _ _ _ _ _ _
          (traceAll_grandchildWiring _ notCerr_of_isFdOp o _ ?_) ?_ ?_ ?_ <;>
          simp [traceAll_emit, hpipe, Event.notCerr]
      · subst hp
        exact greatGrandchild_notCerr o _ (traceAll_forked _ _)

theorem child_notCerr (argv : List String) (o : Oracle) (s : PState)
    (h : TraceAll Event.notCerr s) :
    ∀ p ∈ child argv o s, TraceAll Event.notCerr p.st := by
  have hpipe : ∀ ok, TraceAll Event.notCerr (s.pipe ok 0) := fun ok =>
    traceAll_pipe _ (by simp [Event.notCerr]) s ok 0 h
  intro p hp
  cases h1 : o .pipe0 with
  | false =>
    simp [child, h1, PState.exit] at hp
    subst hp
    simp [traceAll_emit, hpipe, Event.notCerr]
  | true =>
    cases h2 : o .fork2 with
    | false =>
      simp [child, h1, h2, PState.exit] at hp
      subst hp
      simp [traceAll_emit, hpipe, Event.notCerr]
    | true =>
      rw [child_eq argv o s h1 h2] at hp
      simp only [List.mem_cons] at hp
      rcases hp with hp | hp
      · subst hp
        refine traceAll_execlp _ _ _ _ _ _ _ _
          (traceAll_childWiring _ notCerr_of_isFdOp o _ ?_) ?_ ?_ ?_ <;>
          simp [traceAll_emit, hpipe, Event.notCerr]
      · exact grandchild_notCerr argv o _ (traceAll_forked _ _) p hp

/-! ## Argument count -/

/-- C1. When `argc` is not 2 the run consists of the supervisor alone, which writes the
usage line with `cerr` and calls `exit(-1)` (exit status 255) and does nothing else: no
pipe, fork, exec or completion notice. When `argc` is 2 no process writes anything with
`cerr`. -/
theorem usage_iff_argc_ne_two (argv : List String) (o : Oracle) (init : List (Option Nat)) :
    (argv.length ≠ 2 →
      main argv o init =
        [⟨.parent, none,
          ⟨initTable init, none, none, [.cerr "Usage: processes command", .exit (-1)]⟩,
          .exited 255⟩]) ∧
    (argv.length = 2 → ∀ p ∈ main argv o init, ∀ msg, Event.cerr msg ∉ p.st.trace) := by
  constructor
  · intro h
    simp [main, h, PState.exit, PState.emit, exitStatus]
  · intro h p hp msg hmem
    have key : TraceAll Event.notCerr p.st := by
      cases h1 : o .fork1 with
      | false =>
        simp [main, h, h1, PState.ret] at hp
        subst hp
        simp [TraceAll, PState.emit, Event.notCerr]
      | true =>
        simp only [main, h, h1, ne_eq, not_true_eq_false, if_false, Bool.not_true,
          Bool.false_eq_true, List.mem_cons] at hp
        rcases hp with hp | hp
        · subst hp
          simp [PState.ret, TraceAll, PState.emit, Event.notCerr]
        · exact child_notCerr argv o _ (traceAll_forked _ _) p hp
    exact key _ hmem msg rfl

theorem usage_iff_argc_ne_two_witness :
    main ["processes"] allSucceed [some 0, some 1, some 2] =
        [⟨.parent, none,
          ⟨initTable [some 0, some 1, some 2], none, none,
            [.cerr "Usage: processes command", .exit (-1)]⟩,
          .exited 255⟩] ∧
    (∀ p ∈ main ["processes", "bash"] allSucceed [some 0, some 1, some 2],
      ∀ msg, Event.cerr msg ∉ p.st.trace) :=
  ⟨(usage_iff_argc_ne_two ["processes"] allSucceed [some 0, some 1, some 2]).1 (by decide),
   (usage_iff_argc_ne_two ["processes", "bash"] allSucceed [some 0, some 1, some 2]).2
     (by decide)⟩

/-! ## The run in which every call succeeds -/

theorem main_of_fork1 (argv : List String) (o : Oracle) (init : List (Option Nat))
    (hlen : argv.length = 2) (h1 : o .fork1 = true) :
    main argv o init =
      ⟨.parent, none,
        ⟨initTable init, none, none,
          [.fork true, .wait, .cout "commands completed", .ret 0]⟩, .exited 0⟩
        :: child argv o (start init).forked := by
  simp [main, hlen, h1, PState.ret, PState.emit, exitStatus, start]

theorem main_allSucceed (argv : List String) (o : Oracle) (init : List (Option Nat))
    (hlen : argv.length = 2) (hall : ∀ c, o c = true) :
    main argv o init =
      [⟨.parent, none,
          ⟨initTable init, none, none,
            [.fork true, .wait, .cout "commands completed", .ret 0]⟩, .exited 0⟩,
       ⟨.child, some .parent,
          (childWiring o ((childStart init).emit (.fork true))).emit
            (.exec "wc" ["wc", "-l"] true),
          .image "wc" ["wc", "-l"]⟩,
       ⟨.grandchild, some .child,
          (grandchildWiring o ((grandchildStart init).emit (.fork true))).emit
            (.exec "grep" ["grep", argv.getD 1 ""] true),
          .image "grep" ["grep", argv.getD 1 ""]⟩,
       ⟨.greatGrandchild, some .grandchild,
          (greatGrandchildWiring o (grandchildStart init).forked).emit
            (.exec "ps" ["ps", "aux"] true),
          .image "ps" ["ps", "aux"]⟩] := by
  rw [main_of_fork1 argv o init hlen (hall _), child_eq argv o _ (hall _) (hall _),
    grandchild_eq argv o _ (hall _) (hall _), greatGrandchild_eq]
  simp [PState.execlp, hall, childStart, grandchildStart]

/-! ## Failure of the first fork -/

/-- C4 (the call at line 58). When the supervisor's `fork` fails, the supervisor calls
`perror("fork error")` and then reaches `return 0`: it terminates with exit status 0, not
with a non-zero status. -/
theorem first_fork_failure_returns_zero (argv : List String) (o : Oracle)
    (init : List (Option Nat)) (hlen : argv.length = 2) (h1 : o .fork1 = false) :
    main argv o init =
      [⟨.parent, none,
        ⟨initTable init, none, none, [.fork false, .perror "fork error", .ret 0]⟩,
        .exited 0⟩] := by
  simp [main, hlen, h1, PState.ret, PState.emit, exitStatus]

theorem first_fork_failure_returns_zero_witness :
    main ["processes", "bash"] (fun c => decide (c ≠ Call.fork1)) [some 0, some 1, some 2] =
      [⟨.parent, none,
        ⟨initTable [some 0, some 1, some 2], none, none,
          [.fork false, .perror "fork error", .ret 0]⟩,
        .exited 0⟩] :=
  first_fork_failure_returns_zero ["processes", "bash"] (fun c => decide (c ≠ Call.fork1))
    [some 0, some 1, some 2] (by decide) (by decide)

/-- The four later call sites (lines 62, 67, 72, 77) do end the calling process with a
non-zero status: after the failed call comes `perror`, then `exit(-1)`, and nothing else. -/
theorem later_failures_exit_nonzero (argv : List String) (o : Oracle)
    (init : List (Option Nat)) (hlen : argv.length = 2) (h1 : o .fork1 = true) :
    (o .pipe0 = false →
      ∃ p ∈ main argv o init, p.role = .child ∧ p.outcome = .exited 255 ∧
        p.st.trace = [.pipe 0 none, .perror "pipe error", .exit (-1)]) ∧
    (o .pipe0 = true → o .fork2 = false →
      ∃ p ∈ main argv o init, p.role = .child ∧ p.outcome = .exited 255 ∧
        ∃ rw, p.st.trace =
          [.pipe 0 (some rw), .fork false, .perror "fork error", .exit (-1)]) ∧
    (o .pipe0 = true → o .fork2 = true → o .pipe1 = false →
      ∃ p ∈ main argv o init, p.role = .grandchild ∧ p.outcome = .exited 255 ∧
        p.st.trace = [.pipe 1 none, .perror "pipe error", .exit (-1)]) ∧
    (o .pipe0 = true → o .fork2 = true → o .pipe1 = true → o .fork3 = false →
      ∃ p ∈ main argv o init, p.role = .grandchild ∧ p.outcome = .exited 255 ∧
        ∃ rw, p.st.trace =
          [.pipe 1 (some rw), .fork false, .perror "fork error", .exit (-1)]) := by
  rw [main_of_fork1 argv o init hlen h1]
  refine ⟨?_, ?_, ?_, ?_⟩
  · intro h2
    simp [child, h2, PState.exit, PState.emit, PState.pipe, PState.forked, start, exitStatus]
  · intro h2 h3
    simp [child, h2, h3, PState.exit, PState.emit, PState.pipe, PState.forked, start,
      exitStatus]
  · intro h2 h3 h4
    rw [child_eq argv o _ h2 h3]
    simp [grandchild, h4, PState.execlp, PState.exit, PState.emit, PState.pipe,
      PState.forked, start, exitStatus]
  · intro h2 h3 h4 h5
    rw [child_eq argv o _ h2 h3]
    simp [grandchild, h4, h5, PState.execlp, PState.exit, PState.emit, PState.pipe,
      PState.forked, start, exitStatus]

/-! ## Failure of an `execlp` -/

theorem execlp_false (s : PState) (r : Role) (b : Option Role) (f : String)
    (a : List String) (m : String) :
    s.execlp false r b f a m =
      ⟨r, b, ⟨s.fdt, s.fds0, s.fds1, s.trace ++ [.exec f a false, .perror m, .exit (-1)]⟩,
        .exited 255⟩ := by
  simp [PState.execlp, PState.exit, PState.emit, exitStatus]

theorem isSetup_of_isFdOp (e : Event) (h : e.isFdOp = true) : e.isSetup = true := by
  cases e <;> simp_all [Event.isSetup, Event.isFdOp]

theorem traceAll_childStart_fork (Q : Event → Prop) (hp : ∀ i r, Q (.pipe i r))
    (hf : ∀ b, Q (.fork b)) (init : List (Option Nat)) :
    TraceAll Q ((childStart init).emit (.fork true)) :=
  (traceAll_emit Q _ _).2 ⟨traceAll_pipe Q hp _ _ _ (traceAll_forked Q _), hf _⟩

theorem traceAll_grandchildStart_fork (Q : Event → Prop) (hp : ∀ i r, Q (.pipe i r))
    (hf : ∀ b, Q (.fork b)) (init : List (Option Nat)) :
    TraceAll Q ((grandchildStart init).emit (.fork true)) :=
  (traceAll_emit Q _ _).2 ⟨traceAll_pipe Q hp _ _ _ (traceAll_forked Q _), hf _⟩

/-- C5. Whenever a stage is reached and its `execlp` returns, that process, having done
nothing but pipeline set-up before, calls `perror` with the message naming the command
(`execlp wc failed`, `execlp grep failed`, `execlp ps failed`) and then `exit(-1)`, which
ends it with exit status 255; nothing follows the `exit`. -/
theorem exec_failure_is_fatal (argv : List String) (o : Oracle) (init : List (Option Nat))
    (hlen : argv.length = 2) (h1 : o .fork1 = true) (h2 : o .pipe0 = true)
    (h3 : o .fork2 = true) :
    (o .execWc = false →
      ∃ p ∈ main argv o init, p.role = .child ∧ p.outcome = .exited 255 ∧
        ∃ pre, (∀ e ∈ pre, e.isSetup = true) ∧
          p.st.trace =
            pre ++ [.exec "wc" ["wc", "-l"] false, .perror "execlp wc failed", .exit (-1)]) ∧
    (o .pipe1 = true → o .fork3 = true →
      (o .execGrep = false →
        ∃ p ∈ main argv o init, p.role = .grandchild ∧ p.outcome = .exited 255 ∧
          ∃ pre, (∀ e ∈ pre, e.isSetup = true) ∧
            p.st.trace =
              pre ++ [.exec "grep" ["grep", argv.getD 1 ""] false,
                .perror "execlp grep failed", .exit (-1)]) ∧
      (o .execPs = false →
        ∃ p ∈ main argv o init, p.role = .greatGrandchild ∧ p.outcome = .exited 255 ∧
          ∃ pre, (∀ e ∈ pre, e.isSetup = true) ∧
            p.st.trace =
              pre ++ [.exec "ps" ["ps", "aux"] false, .perror "execlp ps failed",
                .exit (-1)])) := by
  have hsetup : ∀ e : Event, e.isFdOp = true → (fun e : Event => e.isSetup = true) e :=
    isSetup_of_isFdOp
  rw [main_of_fork1 argv o init hlen h1, child_eq argv o _ h2 h3]
  refine ⟨?_, ?_⟩
  · intro hx
    rw [hx, execlp_false]
    refine ⟨_, List.mem_cons_of_mem _ (List.mem_cons_self _ _), rfl, rfl, _, ?_, rfl⟩
    exact traceAll_childWiring _ hsetup o _
      (traceAll_childStart_fork (fun e => e.isSetup = true) (fun _ _ => rfl) (fun _ => rfl) init)
  · intro h4 h5
    rw [grandchild_eq argv o _ h4 h5, greatGrandchild_eq]
    refine ⟨?_, ?_⟩
    · intro hx
      rw [hx, execlp_false]
      refine ⟨_, List.mem_cons_of_mem _ (List.mem_cons_of_mem _ (List.mem_cons_self _ _)),
        rfl, rfl, _, ?_, rfl⟩
      exact traceAll_grandchildWiring _ hsetup o _
        (traceAll_grandchildStart_fork (fun e => e.isSetup = true) (fun _ _ => rfl) (fun _ => rfl)
          init)
    · intro hx
      rw [hx, execlp_false]
      refine ⟨_, List.mem_cons_of_mem _ (List.mem_cons_of_mem _ (List.mem_cons_of_mem _
        (List.mem_cons_self _ _))), rfl, rfl, _, ?_, rfl⟩
      exact traceAll_greatGrandchildWiring _ hsetup o _ (traceAll_forked _ _)

theorem exec_failure_is_fatal_witness :
    (∃ p ∈ main ["processes", "bash"] execsFail [some 0, some 1, some 2],
      p.role = .child ∧ p.outcome = .exited 255 ∧
        ∃ pre, (∀ e ∈ pre, e.isSetup = true) ∧
          p.st.trace =
            pre ++ [.exec "wc" ["wc", "-l"] false, .perror "execlp wc failed", .exit (-1)]) ∧
    (∃ p ∈ main ["processes", "bash"] execsFail [some 0, some 1, some 2],
      p.role = .grandchild ∧ p.outcome = .exited 255 ∧
        ∃ pre, (∀ e ∈ pre, e.isSetup = true) ∧
          p.st.trace =
            pre ++ [.exec "grep" ["grep", "bash"] false, .perror "execlp grep failed",
              .exit (-1)]) ∧
    (∃ p ∈ main ["processes", "bash"] execsFail [some 0, some 1, some 2],
      p.role = .greatGrandchild ∧ p.outcome = .exited 255 ∧
        ∃ pre, (∀ e ∈ pre, e.isSetup = true) ∧
          p.st.trace =
            pre ++ [.exec "ps" ["ps", "aux"] false, .perror "execlp ps failed",
              .exit (-1)]) :=
  have h := exec_failure_is_fatal ["processes", "bash"] execsFail [some 0, some 1, some 2]
    (by decide) (by decide) (by decide) (by decide)
  ⟨h.1 (by decide), (h.2 (by decide) (by decide)).1 (by decide),
    (h.2 (by decide) (by decide)).2 (by decide)⟩

/-! ## The supervisor -/

theorem child_shape (argv : List String) (o : Oracle) (s : PState) :
    ∃ c rest, child argv o s = c :: rest ∧ c.role = .child ∧ c.forkedBy = some .parent ∧
      (∀ p ∈ rest, p.forkedBy ≠ some .parent) ∧
      (c.outcome = .exited 255 ∨ c.outcome = .image "wc" ["wc", "-l"]) ∧
      (o .pipe0 = true → o .fork2 = true → o .execWc = true →
        c.outcome = .image "wc" ["wc", "-l"]) := by
  cases h1 : o .pipe0 with
  | false =>
    refine ⟨((s.pipe false 0).emit (.perror "pipe error")).exit .child (some .parent) (-1), [],
      by simp [child, h1], rfl, rfl, by simp, Or.inl ?_, by simp⟩
    simp [PState.exit, exitStatus]
  | true =>
    cases h2 : o .fork2 with
    | false =>
      refine ⟨(((s.pipe true 0).emit (.fork false)).emit (.perror "fork error")).exit .child
        (some .parent) (-1), [], by simp [child, h1, h2], rfl, rfl, by simp, Or.inl ?_,
        by simp⟩
      simp [PState.exit, exitStatus]
    | true =>
      refine ⟨_, _, child_eq argv o s h1 h2, ?_, ?_, ?_, ?_, ?_⟩
      · cases o .execWc <;> simp [PState.execlp, PState.exit]
      · cases o .execWc <;> simp [PState.execlp, PState.exit]
      · intro p hp
        rcases grandchild_roles argv o _ p hp with h | h <;> simp [h.2]
      · cases o .execWc <;> simp [PState.execlp, PState.exit, exitStatus]
      · intro _ _ hx
        simp [PState.execlp, hx]

/-- C6. When the supervisor's `fork` succeeds, the supervisor does exactly this, whatever
the other calls do: `wait(NULL)`, then one `cout` of the completion notice, then
`return 0` (exit status 0). The only process it forked is the child, which either ends
with status 255 or becomes `wc -l`, and does become `wc -l` when its `pipe`, `fork` and
`execlp` succeed. -/
theorem supervisor_waits_then_reports (argv : List String) (o : Oracle)
    (init : List (Option Nat)) (hlen : argv.length = 2) (h1 : o .fork1 = true) :
    ∃ c rest,
      main argv o init =
        ⟨.parent, none,
          ⟨initTable init, none, none,
            [.fork true, .wait, .cout "commands completed", .ret 0]⟩, .exited 0⟩
          :: c :: rest ∧
      c.role = .child ∧ c.forkedBy = some .parent ∧
      (∀ p ∈ rest, p.forkedBy ≠ some .parent) ∧
      (c.outcome = .exited 255 ∨ c.outcome = .image "wc" ["wc", "-l"]) ∧
      (o .pipe0 = true → o .fork2 = true → o .execWc = true →
        c.outcome = .image "wc" ["wc", "-l"]) := by
  obtain ⟨c, rest, hc, h⟩ := child_shape argv o (start init).forked
  exact ⟨c, rest, by rw [main_of_fork1 argv o init hlen h1, hc], h⟩

theorem supervisor_waits_then_reports_witness :
    ∃ c rest,
      main ["processes", "bash"] execsFail [some 0, some 1, some 2] =
        ⟨.parent, none,
          ⟨initTable [some 0, some 1, some 2], none, none,
            [.fork true, .wait, .cout "commands completed", .ret 0]⟩, .exited 0⟩
          :: c :: rest ∧
      c.role = .child ∧ c.forkedBy = some .parent ∧
      (∀ p ∈ rest, p.forkedBy ≠ some .parent) ∧
      (c.outcome = .exited 255 ∨ c.outcome = .image "wc" ["wc", "-l"]) ∧
      (execsFail .pipe0 = true → execsFail .fork2 = true → execsFail .execWc = true →
        c.outcome = .image "wc" ["wc", "-l"]) :=
  supervisor_waits_then_reports ["processes", "bash"] execsFail [some 0, some 1, some 2]
    (by decide) (by decide)

/-! ## Argument lists and the shape of the process tree -/

/-- C7, as stated, fails: in the run with every call succeeding the great-grandchild, which
becomes the process-listing stage, is not started without arguments. -/
theorem ps_has_an_argument :
    ¬ ∀ p ∈ main ["processes", "bash"] allSucceed [some 0, some 1, some 2],
        p.outcome.file = some "ps" → p.outcome.arguments = some [] := by
  decide

theorem execArgsOk_of_isSetup (t : String) (r : Role) (e : Event)
    (h : e.isSetup = true) : e.execArgsOk t r := by
  intro f a ok he
  subst he
  simp [Event.isSetup, Event.isFdOp] at h

theorem traceAll_mono (P Q : Event → Prop) (hPQ : ∀ e, P e → Q e) (s : PState)
    (h : TraceAll P s) : TraceAll Q s :=
  fun e he => hPQ e (h e he)

theorem execlp_argsOk (t : String) (s : PState) (ok : Bool) (r : Role) (b : Option Role)
    (f : String) (a : List String) (m : String)
    (hs : TraceAll (fun e => e.isSetup = true) s)
    (hfa : (r = .greatGrandchild ∧ f = "ps" ∧ a = ["ps", "aux"]) ∨
      (r = .grandchild ∧ f = "grep" ∧ a = ["grep", t]) ∨
      (r = .child ∧ f = "wc" ∧ a = ["wc", "-l"])) :
    TraceAll (Event.execArgsOk t (s.execlp ok r b f a m).role) (s.execlp ok r b f a m).st ∧
    (s.execlp ok r b f a m).outcome.argsOk t := by
  constructor
  · have hr : (s.execlp ok r b f a m).role = r := by cases ok <;> rfl
    rw [hr]
    refine traceAll_execlp _ s ok r b f a m
      (traceAll_mono _ _ (execArgsOk_of_isSetup t r) s hs) ?_ ?_ ?_
    · intro k f1 a1 k1 he
      cases he
      exact hfa
    · intro f1 a1 k1 he
      cases he
    · intro f1 a1 k1 he
      cases he
  · cases ok
    · rw [execlp_false]
      simp [Outcome.argsOk, Outcome.file]
    · rcases hfa with ⟨-, h1, h2⟩ | ⟨-, h1, h2⟩ | ⟨-, h1, h2⟩ <;> subst h1 <;> subst h2 <;>
        simp [PState.execlp, Outcome.argsOk, Outcome.file, Outcome.arguments]

theorem exit_argsOk (t : String) (s : PState) (r : Role) (b : Option Role) (c : Int)
    (hs : TraceAll (fun e => e.isSetup = true ∨ ∃ m, e = .perror m) s) :
    TraceAll (Event.execArgsOk t (s.exit r b c).role) (s.exit r b c).st ∧
    (s.exit r b c).outcome.argsOk t := by
  constructor
  · intro e he f a ok hx
    subst hx
    simp only [PState.exit, PState.emit, List.mem_append, List.mem_singleton] at he
    rcases he with he | he
    · rcases hs _ he with h | ⟨m, h⟩
      · simp [Event.isSetup, Event.isFdOp] at h
      · cases h
    · cases he
  · simp [PState.exit, Outcome.argsOk, Outcome.file]

theorem grandchild_argsOk (a0 t : String) (o : Oracle) (s : PState)
    (hs : TraceAll (fun e => e.isSetup = true) s) :
    ∀ p ∈ grandchild [a0, t] o s,
      TraceAll (Event.execArgsOk t p.role) p.st ∧ p.outcome.argsOk t := by
  have hpipe : ∀ ok, TraceAll (fun e => e.isSetup = true) (s.pipe ok 1) := fun ok =>
    traceAll_pipe (fun e => e.isSetup = true) (fun _ _ => rfl) s ok 1 hs
  intro p hp
  cases h1 : o .pipe1 with
  | false =>
    simp [grandchild, h1] at hp
    subst hp
    refine exit_argsOk t _ _ _ _ ?_
    intro e he
    simp only [PState.emit, List.mem_append, List.mem_singleton] at he
    rcases he with he | he
    · exact Or.inl (hpipe false e he)
    · exact Or.inr ⟨_, he⟩
  | true =>
    cases h2 : o .fork3 with
    | false =>
      simp [grandchild, h1, h2] at hp
      subst hp
      refine exit_argsOk t _ _ _ _ ?_
      intro e he
      simp only [PState.emit, List.mem_append, List.mem_singleton] at he
      rcases he with (he | he) | he
      · exact Or.inl (hpipe true e he)
      · subst he; exact Or.inl rfl
      · exact Or.inr ⟨_, he⟩
    | true =>
      rw [grandchild_eq [a0, t] o s h1 h2, greatGrandchild_eq] at hp
      simp only [List.mem_cons, List.mem_singleton, List.not_mem_nil, or_false] at hp
      rcases hp with hp | hp <;> subst hp
      · refine execlp_argsOk t _ _ _ _ _ _ _
          (traceAll_grandchildWiring _ isSetup_of_isFdOp o _
            ((traceAll_emit _ _ _).2 ⟨hpipe true, rfl⟩))
          (Or.inr (Or.inl ⟨rfl, rfl, ?_⟩))
        simp
      · exact execlp_argsOk t _ _ _ _ _ _ _
          (traceAll_greatGrandchildWiring _ isSetup_of_isFdOp o _ (traceAll_forked _ _))
          (Or.inl ⟨rfl, rfl, rfl⟩)

theorem child_argsOk (a0 t : String) (o : Oracle) (s : PState)
    (hs : TraceAll (fun e => e.isSetup = true) s) :
    ∀ p ∈ child [a0, t] o s,
      TraceAll (Event.execArgsOk t p.role) p.st ∧ p.outcome.argsOk t := by
  have hpipe : ∀ ok, TraceAll (fun e => e.isSetup = true) (s.pipe ok 0) := fun ok =>
    traceAll_pipe (fun e => e.isSetup = true) (fun _ _ => rfl) s ok 0 hs
  intro p hp
  cases h1 : o .pipe0 with
  | false =>
    simp [child, h1] at hp
    subst hp
    refine exit_argsOk t _ _ _ _ ?_
    intro e he
    simp only [PState.emit, List.mem_append, List.mem_singleton] at he
    rcases he with he | he
    · exact Or.inl (hpipe false e he)
    · exact Or.inr ⟨_, he⟩
  | true =>
    cases h2 : o .fork2 with
    | false =>
      simp [child, h1, h2] at hp
      subst hp
      refine exit_argsOk t _ _ _ _ ?_
      intro e he
      simp only [PState.emit, List.mem_append, List.mem_singleton] at he
      rcases he with (he | he) | he
      · exact Or.inl (hpipe true e he)
      · subst he; exact Or.inl rfl
      · exact Or.inr ⟨_, he⟩
    | true =>
      rw [child_eq [a0, t] o s h1 h2] at hp
      simp only [List.mem_cons] at hp
      rcases hp with hp | hp
      · subst hp
        exact execlp_argsOk t _ _ _ _ _ _ _
          (traceAll_childWiring _ isSetup_of_isFdOp o _
            ((traceAll_emit _ _ _).2 ⟨hpipe true, rfl⟩))
          (Or.inr (Or.inr ⟨rfl, rfl, rfl⟩))
      · exact grandchild_argsOk a0 t o _ (traceAll_forked _ _) p hp

theorem main_argsOk (a0 t : String) (o : Oracle) (init : List (Option Nat)) :
    ∀ p ∈ main [a0, t] o init,
      TraceAll (Event.execArgsOk t p.role) p.st ∧ p.outcome.argsOk t := by
  intro p hp
  cases h1 : o .fork1 with
  | false =>
    simp [main, h1, PState.ret, PState.emit] at hp
    subst hp
    simp [TraceAll, Event.execArgsOk, Outcome.argsOk, Outcome.file]
  | true =>
    rw [main_of_fork1 [a0, t] o init rfl h1] at hp
    simp only [List.mem_cons] at hp
    rcases hp with hp | hp
    · subst hp
      simp [TraceAll, Event.execArgsOk, Outcome.argsOk, Outcome.file]
    · exact child_argsOk a0 t o _ (traceAll_forked _ _) p hp

/-- C7, amended. For every command-line argument `t`, in every run with `argc == 2` and
`argv[1] = t`: each `execlp` call made is `ps` with argument vector `ps aux` (in the
great-grandchild), `grep` with `grep t` (in the grandchild) or `wc` with `wc -l` (in the
child), so a process that became `ps` was started with the one argument `aux`, one that
became `grep` with the one argument `t`, unchanged, and one that became `wc` with the one
argument `-l`. Each of the three calls is made as soon as the forks and pipes before it
succeed. -/
theorem exec_argument_lists (a0 t : String) (o : Oracle) (init : List (Option Nat)) :
    (∀ p ∈ main [a0, t] o init, ∀ f a ok, Event.exec f a ok ∈ p.st.trace →
      (p.role = .greatGrandchild ∧ f = "ps" ∧ a = ["ps", "aux"]) ∨
      (p.role = .grandchild ∧ f = "grep" ∧ a = ["grep", t]) ∨
      (p.role = .child ∧ f = "wc" ∧ a = ["wc", "-l"])) ∧
    (∀ p ∈ main [a0, t] o init,
      (p.outcome.file = some "ps" → p.outcome.arguments = some ["aux"]) ∧
      (p.outcome.file = some "grep" → p.outcome.arguments = some [t]) ∧
      (p.outcome.file = some "wc" → p.outcome.arguments = some ["-l"])) ∧
    (o .fork1 = true → o .pipe0 = true → o .fork2 = true →
      (∃ p ∈ main [a0, t] o init, p.role = .child ∧
        Event.exec "wc" ["wc", "-l"] (o .execWc) ∈ p.st.trace ∧
        (o .execWc = true → p.outcome = .image "wc" ["wc", "-l"])) ∧
      (o .pipe1 = true → o .fork3 = true →
        (∃ p ∈ main [a0, t] o init, p.role = .grandchild ∧
          Event.exec "grep" ["grep", t] (o .execGrep) ∈ p.st.trace ∧
          (o .execGrep = true → p.outcome = .image "grep" ["grep", t])) ∧
        (∃ p ∈ main [a0, t] o init, p.role = .greatGrandchild ∧
          Event.exec "ps" ["ps", "aux"] (o .execPs) ∈ p.st.trace ∧
          (o .execPs = true → p.outcome = .image "ps" ["ps", "aux"])))) := by
  have hexec : ∀ (s : PState) (ok : Bool) (r : Role) (b : Option Role) (f : String)
      (a : List String) (m : String),
      (s.execlp ok r b f a m).role = r ∧
      Event.exec f a ok ∈ (s.execlp ok r b f a m).st.trace ∧
      (ok = true → (s.execlp ok r b f a m).outcome = .image f a) := by
    intro s ok r b f a m
    cases ok
    · rw [execlp_false]; simp
    · simp [PState.execlp, PState.emit]
  refine ⟨fun p hp f a ok he => (main_argsOk a0 t o init p hp).1 _ he f a ok rfl,
    fun p hp => (main_argsOk a0 t o init p hp).2, ?_⟩
  intro h1 h2 h3
  rw [main_of_fork1 [a0, t] o init rfl h1, child_eq [a0, t] o _ h2 h3]
  refine ⟨⟨_, List.mem_cons_of_mem _ (List.mem_cons_self _ _), hexec _ _ _ _ _ _ _⟩, ?_⟩
  intro h4 h5
  rw [grandchild_eq [a0, t] o _ h4 h5, greatGrandchild_eq]
  refine ⟨⟨_, List.mem_cons_of_mem _ (List.mem_cons_of_mem _ (List.mem_cons_self _ _)), ?_⟩,
    ⟨_, List.mem_cons_of_mem _ (List.mem_cons_of_mem _ (List.mem_cons_of_mem _
      (List.mem_cons_self _ _))), hexec _ _ _ _ _ _ _⟩⟩
  have h := hexec (grandchildWiring o (((start init).forked.pipe true 0).forked.pipe true 1
    |>.emit (.fork true))) (o .execGrep) .grandchild (some .child) "grep" ["grep", t]
    "execlp grep failed"
  simpa using h

theorem exec_argument_lists_witness :
    (∀ p ∈ main ["processes", "bash"] allSucceed [some 0, some 1, some 2],
      (p.outcome.file = some "ps" → p.outcome.arguments = some ["aux"]) ∧
      (p.outcome.file = some "grep" → p.outcome.arguments = some ["bash"]) ∧
      (p.outcome.file = some "wc" → p.outcome.arguments = some ["-l"])) ∧
    (∃ p ∈ main ["processes", "bash"] allSucceed [some 0, some 1, some 2],
      p.role = .child ∧
      Event.exec "wc" ["wc", "-l"] true ∈ p.st.trace ∧
      p.outcome = .image "wc" ["wc", "-l"]) ∧
    (∃ p ∈ main ["processes", "bash"] allSucceed [some 0, some 1, some 2],
      p.role = .grandchild ∧
      Event.exec "grep" ["grep", "bash"] true ∈ p.st.trace ∧
      p.outcome = .image "grep" ["grep", "bash"]) ∧
    (∃ p ∈ main ["processes", "bash"] allSucceed [some 0, some 1, some 2],
      p.role = .greatGrandchild ∧
      Event.exec "ps" ["ps", "aux"] true ∈ p.st.trace ∧
      p.outcome = .image "ps" ["ps", "aux"]) := by
  have h := exec_argument_lists "processes" "bash" allSucceed [some 0, some 1, some 2]
  obtain ⟨⟨p1, m1, r1, e1, o1⟩, h'⟩ := h.2.2 rfl rfl rfl
  obtain ⟨⟨p2, m2, r2, e2, o2⟩, ⟨p3, m3, r3, e3, o3⟩⟩ := h' rfl rfl
  exact ⟨h.2.1, ⟨p1, m1, r1, e1, o1 rfl⟩, ⟨p2, m2, r2, e2, o2 rfl⟩, ⟨p3, m3, r3, e3, o3 rfl⟩⟩

/-- C8, as stated, fails: in the run with every call succeeding the process forked by the
supervisor does not become the process-listing command. -/
theorem first_spawned_is_not_ps :
    ¬ ∀ p ∈ main ["processes", "bash"] allSucceed [some 0, some 1, some 2],
        p.forkedBy = some .parent → p.outcome.file = some "ps" := by
  decide

/-- C8, amended. When every call succeeds the tree is a chain spawned in reverse pipeline
order: the supervisor forks the child, which becomes `wc` (stage 3); the child forks the
grandchild, which becomes `grep` (stage 2); the grandchild forks the great-grandchild,
which becomes `ps` (stage 1); and the great-grandchild never calls `fork`. -/
theorem chain_in_reverse_pipeline_order (argv : List String) (o : Oracle)
    (init : List (Option Nat)) (hlen : argv.length = 2) (hall : ∀ c, o c = true) :
    (main argv o init).map (fun p => (p.role, p.forkedBy, p.outcome.file)) =
      [(.parent, none, none),
       (.child, some .parent, some "wc"),
       (.grandchild, some .child, some "grep"),
       (.greatGrandchild, some .grandchild, some "ps")] ∧
    ∀ p ∈ main argv o init, p.role = .greatGrandchild →
      ∀ e ∈ p.st.trace, ∀ b, e ≠ .fork b := by
  rw [main_allSucceed argv o init hlen hall]
  refine ⟨by simp [Outcome.file], ?_⟩
  intro p hp hr
  simp only [List.mem_cons, List.mem_singleton, List.not_mem_nil, or_false] at hp
  rcases hp with hp | hp | hp | hp <;> subst hp <;> simp at hr
  have hQ : ∀ e : Event, e.isFdOp = true → (fun e : Event => ∀ b, e ≠ .fork b) e := by
    intro e he b hb
    subst hb
    simp [Event.isFdOp] at he
  have := (traceAll_emit (fun e : Event => ∀ b, e ≠ .fork b) _
    (.exec "ps" ["ps", "aux"] true)).2
    ⟨traceAll_greatGrandchildWiring _ hQ o _ (traceAll_forked _ (grandchildStart init)),
      by simp⟩
  exact this

theorem chain_in_reverse_pipeline_order_witness :
    (main ["processes", "bash"] allSucceed [some 0, some 1, some 2]).map
        (fun p => (p.role, p.forkedBy, p.outcome.file)) =
      [(.parent, none, none),
       (.child, some .parent, some "wc"),
       (.grandchild, some .child, some "grep"),
       (.greatGrandchild, some .grandchild, some "ps")] ∧
    ∀ p ∈ main ["processes", "bash"] allSucceed [some 0, some 1, some 2],
      p.role = .greatGrandchild → ∀ e ∈ p.st.trace, ∀ b, e ≠ .fork b :=
  chain_in_reverse_pipeline_order ["processes", "bash"] allSucceed [some 0, some 1, some 2]
    (by decide) (fun _ => rfl)

/-! ## Descriptor operations on open descriptors -/

/-- The three descriptor operations of the child, for any state in which `fds[0]` holds
the two open endpoints of the first pipe. -/
theorem childWiring_eq (o : Oracle) (t : FdTable) (row1 : Option (Nat × Nat))
    (tr : List Event) (r w : Nat) (hrw : r < w)
    (hr : lookup t r = some (.pipeRead 0)) (hw : lookup t w = some (.pipeWrite 0)) :
    childWiring o ⟨t, some (r, w), row1, tr⟩ =
      ⟨put (if o .dupWcIn = true ∧ r ≠ 0 then put (put t w none) 0 (some (.pipeRead 0))
            else put t w none) r none,
        some (r, w), row1,
        tr ++ [.close w (some (.pipeWrite 0)),
               .dup2 r 0 (some (.pipeRead 0)) (o .dupWcIn),
               .close r (some (.pipeRead 0))]⟩ := by
  have h1 : r ≠ w := by omega
  by_cases h0 : r = 0
  · subst h0
    cases ha : o .dupWcIn <;>
      simp [childWiring, PState.close, PState.dup2, PState.fd, PState.emit, STDIN_FILENO,
        lookup_put, hr, hw, h1, ha]
  · cases ha : o .dupWcIn <;>
      simp [childWiring, PState.close, PState.dup2, PState.fd, PState.emit, STDIN_FILENO,
        lookup_put, hr, hw, h1, h0, ha]

/-- The five descriptor operations of the great-grandchild, for any state in which `fds`
holds the open endpoints of both pipes. -/
theorem greatGrandchildWiring_eq (o : Oracle) (t : FdTable) (tr : List Event)
    (r0 w0 r1 w1 : Nat) (h01 : r0 < w0) (h12 : w0 < r1) (h23 : r1 < w1)
    (hr0 : lookup t r0 = some (.pipeRead 0)) (hw0 : lookup t w0 = some (.pipeWrite 0))
    (hr1 : lookup t r1 = some (.pipeRead 1)) (hw1 : lookup t w1 = some (.pipeWrite 1)) :
    greatGrandchildWiring o ⟨t, some (r0, w0), some (r1, w1), tr⟩ =
      ⟨put (if o .dupPsOut = true
              then put (put (put (put t r0 none) w0 none) r1 none) 1 (some (.pipeWrite 1))
              else put (put (put t r0 none) w0 none) r1 none) w1 none,
        some (r0, w0), some (r1, w1),
        tr ++ [.close r0 (some (.pipeRead 0)),
               .close w0 (some (.pipeWrite 0)),
               .close r1 (some (.pipeRead 1)),
               .dup2 w1 1 (some (.pipeWrite 1)) (o .dupPsOut),
               .close w1 (some (.pipeWrite 1))]⟩ := by
  have e1 : w0 ≠ r0 := by omega
  have e2 : r1 ≠ r0 := by omega
  have e3 : r1 ≠ w0 := by omega
  have e4 : w1 ≠ r0 := by omega
  have e5 : w1 ≠ w0 := by omega
  have e6 : w1 ≠ r1 := by omega
  have e7 : w1 ≠ 1 := by omega
  cases ha : o .dupPsOut <;>
    simp [greatGrandchildWiring, PState.close, PState.dup2, PState.fd, PState.emit,
      STDOUT_FILENO, lookup_put, hr0, hw0, hr1, hw1, e1, e2, e3, e4, e5, e6, e7, ha]

/-- The six descriptor operations of the grandchild, for any state in which `fds` holds
the open endpoints of both pipes. -/
theorem grandchildWiring_eq (o : Oracle) (t : FdTable) (tr : List Event)
    (r0 w0 r1 w1 : Nat) (h01 : r0 < w0) (h12 : w0 < r1) (h23 : r1 < w1)
    (hr0 : lookup t r0 = some (.pipeRead 0)) (hw0 : lookup t w0 = some (.pipeWrite 0))
    (hr1 : lookup t r1 = some (.pipeRead 1)) (hw1 : lookup t w1 = some (.pipeWrite 1)) :
    grandchildWiring o ⟨t, some (r0, w0), some (r1, w1), tr⟩ =
      ⟨put (if o .dupGrepOut = true ∧ w0 ≠ 1
              then put (put (put (if o .dupGrepIn = true
                      then put (put t w1 none) 0 (some (.pipeRead 1))
                      else put t w1 none) r1 none) r0 none) 1 (some (.pipeWrite 0))
              else put (put (if o .dupGrepIn = true
                      then put (put t w1 none) 0 (some (.pipeRead 1))
                      else put t w1 none) r1 none) r0 none) w0 none,
        some (r0, w0), some (r1, w1),
        tr ++ [.close w1 (some (.pipeWrite 1)),
               .dup2 r1 0 (some (.pipeRead 1)) (o .dupGrepIn),
               .close r1 (some (.pipeRead 1)),
               .close r0 (some (if o .dupGrepIn = true ∧ r0 = 0 then .pipeRead 1
                                else .pipeRead 0)),
               .dup2 w0 1 (some (.pipeWrite 0)) (o .dupGrepOut),
               .close w0 (some (.pipeWrite 0))]⟩ := by
  have e1 : w0 ≠ r0 := by omega
  have f1 : r0 ≠ w0 := by omega
  have e2 : r1 ≠ r0 := by omega
  have f2 : r0 ≠ r1 := by omega
  have e3 : r1 ≠ w0 := by omega
  have f3 : w0 ≠ r1 := by omega
  have e4 : w1 ≠ r0 := by omega
  have f4 : r0 ≠ w1 := by omega
  have e5 : w1 ≠ w0 := by omega
  have f5 : w0 ≠ w1 := by omega
  have e6 : w1 ≠ r1 := by omega
  have f6 : r1 ≠ w1 := by omega
  have e7 : r1 ≠ 0 := by omega
  have f7 : 0 ≠ r1 := by omega
  have e8 : w0 ≠ 0 := by omega
  have f8 : 0 ≠ w0 := by omega
  have e9 : r1 ≠ 1 := by omega
  have f9 : 1 ≠ r1 := by omega
  have e10 : w1 ≠ 1 := by omega
  have f10 : 1 ≠ w1 := by omega
  have e11 : w1 ≠ 0 := by omega
  have f11 : 0 ≠ w1 := by omega
  by_cases z : r0 = 0
  · subst z
    by_cases y : w0 = 1
    · subst y
      cases ha : o .dupGrepIn <;> cases hb : o .dupGrepOut <;>
        simp [grandchildWiring, PState.close, PState.dup2, PState.fd, PState.emit,
          STDIN_FILENO, STDOUT_FILENO, lookup_put, hr0, hw0, hr1, hw1, ha, hb,
          e1, f1, e2, f2, e3, f3, e4, f4, e5, f5, e6, f6,
          e7, f7, e8, f8, e9, f9, e10, f10, e11, f11]
    · cases ha : o .dupGrepIn <;> cases hb : o .dupGrepOut <;>
        simp [grandchildWiring, PState.close, PState.dup2, PState.fd, PState.emit,
          STDIN_FILENO, STDOUT_FILENO, lookup_put, hr0, hw0, hr1, hw1, ha, hb,
          e1, f1, e2, f2, e3, f3, e4, f4, e5, f5, e6, f6,
          e7, f7, e8, f8, e9, f9, e10, f10, e11, f11, y]
  · by_cases y : w0 = 1
    · subst y
      cases ha : o .dupGrepIn <;> cases hb : o .dupGrepOut <;>
        simp [grandchildWiring, PState.close, PState.dup2, PState.fd, PState.emit,
          STDIN_FILENO, STDOUT_FILENO, lookup_put, hr0, hw0, hr1, hw1, ha, hb,
          e1, f1, e2, f2, e3, f3, e4, f4, e5, f5, e6, f6,
          e7, f7, e8, f8, e9, f9, e10, f10, e11, f11, z]
    · cases ha : o .dupGrepIn <;> cases hb : o .dupGrepOut <;>
        simp [grandchildWiring, PState.close, PState.dup2, PState.fd, PState.emit,
          STDIN_FILENO, STDOUT_FILENO, lookup_put, hr0, hw0, hr1, hw1, ha, hb,
          e1, f1, e2, f2, e3, f3, e4, f4, e5, f5, e6, f6,
          e7, f7, e8, f8, e9, f9, e10, f10, e11, f11, z, y]

/-! ## What `pipe` hands out -/

theorem pipeFds_lt (t : FdTable) (i : Nat) : (pipeFds t i).1 < (pipeFds t i).2 :=
  lowestFree_lt_put t _

theorem pipeFds_next (t : FdTable) (i j : Nat) :
    (pipeFds t i).2 < (pipeFds (pipeTable t i) j).1 :=
  lowestFree_lt_put (put t (lowestFree t) (some (.pipeRead i))) _

theorem lookup_pipeTable (t : FdTable) (i d : Nat) :
    lookup (pipeTable t i) d =
      if d = (pipeFds t i).2 then some (.pipeWrite i)
      else if d = (pipeFds t i).1 then some (.pipeRead i) else lookup t d := by
  simp [pipeTable, lookup_put]

theorem pipeFds_fst_free (t : FdTable) (i : Nat) : lookup t (pipeFds t i).1 = none :=
  lookup_lowestFree t

theorem pipeFds_snd_free (t : FdTable) (i : Nat) : lookup t (pipeFds t i).2 = none := by
  have h := lookup_lowestFree (put t (lowestFree t) (some (.pipeRead i)))
  have hlt := pipeFds_lt t i
  rw [lookup_put, if_neg (by simp only [pipeFds] at hlt; omega)] at h
  exact h

theorem pipeFds_ne_of_open (t : FdTable) (i d : Nat) (h : lookup t d ≠ none) :
    d ≠ (pipeFds t i).1 ∧ d ≠ (pipeFds t i).2 := by
  constructor
  · intro e; subst e; exact h (pipeFds_fst_free t i)
  · intro e; subst e; exact h (pipeFds_snd_free t i)

theorem childStart_eq (init : List (Option Nat)) :
    childStart init =
      ⟨pipeTable (initTable init) 0, some (pipeFds (initTable init) 0), none,
        [.pipe 0 (some (pipeFds (initTable init) 0))]⟩ := by
  simp [childStart, start, PState.forked, PState.pipe, pipeTable, pipeFds]

theorem grandchildStart_eq (init : List (Option Nat)) :
    grandchildStart init =
      ⟨pipeTable (pipeTable (initTable init) 0) 1, some (pipeFds (initTable init) 0),
        some (pipeFds (pipeTable (initTable init) 0) 1),
        [.pipe 1 (some (pipeFds (pipeTable (initTable init) 0) 1))]⟩ := by
  simp [grandchildStart, childStart_eq, PState.forked, PState.pipe, pipeTable, pipeFds]

/-! ## The descriptor table of each stage when it reaches its `execlp` -/

theorem child_final (o : Oracle) (init : List (Option Nat)) :
    childWiring o ((childStart init).emit (.fork true)) =
      ⟨put (if o .dupWcIn = true ∧ (pipeFds (initTable init) 0).1 ≠ 0
            then put (put (pipeTable (initTable init) 0) (pipeFds (initTable init) 0).2 none)
              0 (some (.pipeRead 0))
            else put (pipeTable (initTable init) 0) (pipeFds (initTable init) 0).2 none)
          (pipeFds (initTable init) 0).1 none,
        some (pipeFds (initTable init) 0), none,
        [.pipe 0 (some (pipeFds (initTable init) 0)), .fork true,
         .close (pipeFds (initTable init) 0).2 (some (.pipeWrite 0)),
         .dup2 (pipeFds (initTable init) 0).1 0 (some (.pipeRead 0)) (o .dupWcIn),
         .close (pipeFds (initTable init) 0).1 (some (.pipeRead 0))]⟩ := by
  have hlt := pipeFds_lt (initTable init) 0
  rw [childStart_eq]
  simp only [PState.emit]
  rw [childWiring_eq o _ none _ (pipeFds (initTable init) 0).1 (pipeFds (initTable init) 0).2
    hlt (by rw [lookup_pipeTable, if_neg (by omega), if_pos rfl])
    (by rw [lookup_pipeTable, if_pos rfl])]
  simp

theorem fd_order (init : List (Option Nat)) :
    fd00 init < fd01 init ∧ fd01 init < fd10 init ∧ fd10 init < fd11 init :=
  ⟨pipeFds_lt _ _, pipeFds_next _ _ _, pipeFds_lt _ _⟩

theorem fd_free (init : List (Option Nat)) (d : Nat) (h : lookup (initTable init) d ≠ none) :
    d ≠ fd00 init ∧ d ≠ fd01 init ∧ d ≠ fd10 init ∧ d ≠ fd11 init := by
  have h0 := pipeFds_ne_of_open (initTable init) 0 d h
  have h' : lookup (pipeTable (initTable init) 0) d ≠ none := by
    rw [lookup_pipeTable, if_neg h0.2, if_neg h0.1]; exact h
  have h1 := pipeFds_ne_of_open (pipeTable (initTable init) 0) 1 d h'
  exact ⟨h0.1, h0.2, h1.1, h1.2⟩

theorem grandchildStart_lookup (init : List (Option Nat)) (d : Nat) :
    lookup (pipeTable (pipeTable (initTable init) 0) 1) d =
      if d = fd11 init then some (.pipeWrite 1)
      else if d = fd10 init then some (.pipeRead 1)
      else if d = fd01 init then some (.pipeWrite 0)
      else if d = fd00 init then some (.pipeRead 0)
      else lookup (initTable init) d := by
  simp only [lookup_pipeTable, fd00, fd01, fd10, fd11]

theorem grandchild_final (o : Oracle) (init : List (Option Nat)) :
    grandchildWiring o ((grandchildStart init).emit (.fork true)) =
      ⟨put (if o .dupGrepOut = true ∧ fd01 init ≠ 1
              then put (put (put (if o .dupGrepIn = true
                      then put (put (pipeTable (pipeTable (initTable init) 0) 1) (fd11 init)
                        none) 0 (some (.pipeRead 1))
                      else put (pipeTable (pipeTable (initTable init) 0) 1) (fd11 init) none)
                    (fd10 init) none) (fd00 init) none) 1 (some (.pipeWrite 0))
              else put (put (if o .dupGrepIn = true
                      then put (put (pipeTable (pipeTable (initTable init) 0) 1) (fd11 init)
                        none) 0 (some (.pipeRead 1))
                      else put (pipeTable (pipeTable (initTable init) 0) 1) (fd11 init) none)
                    (fd10 init) none) (fd00 init) none) (fd01 init) none,
        some (fd00 init, fd01 init), some (fd10 init, fd11 init),
        [.pipe 1 (some (fd10 init, fd11 init)), .fork true,
         .close (fd11 init) (some (.pipeWrite 1)),
         .dup2 (fd10 init) 0 (some (.pipeRead 1)) (o .dupGrepIn),
         .close (fd10 init) (some (.pipeRead 1)),
         .close (fd00 init) (some (if o .dupGrepIn = true ∧ fd00 init = 0 then .pipeRead 1
                                   else .pipeRead 0)),
         .dup2 (fd01 init) 1 (some (.pipeWrite 0)) (o .dupGrepOut),
         .close (fd01 init) (some (.pipeWrite 0))]⟩ := by
  obtain ⟨h1, h2, h3⟩ := fd_order init
  rw [grandchildStart_eq]
  simp only [PState.emit]
  have e := grandchildWiring_eq o (pipeTable (pipeTable (initTable init) 0) 1)
    ([.pipe 1 (some (pipeFds (pipeTable (initTable init) 0) 1))] ++ [.fork true])
    (fd00 init) (fd01 init) (fd10 init) (fd11 init) h1 h2 h3
    (by rw [grandchildStart_lookup, if_neg (by omega), if_neg (by omega), if_neg (by omega),
          if_pos rfl])
    (by rw [grandchildStart_lookup, if_neg (by omega), if_neg (by omega), if_pos rfl])
    (by rw [grandchildStart_lookup, if_neg (by omega), if_pos rfl])
    (by rw [grandchildStart_lookup, if_pos rfl])
  simp only [fd00, fd01, fd10, fd11] at e ⊢
  rw [e]
  simp

theorem greatGrandchild_final (o : Oracle) (init : List (Option Nat)) :
    greatGrandchildWiring o (grandchildStart init).forked =
      ⟨put (if o .dupPsOut = true
              then put (put (put (put (pipeTable (pipeTable (initTable init) 0) 1) (fd00 init)
                none) (fd01 init) none) (fd10 init) none) 1 (some (.pipeWrite 1))
              else put (put (put (pipeTable (pipeTable (initTable init) 0) 1) (fd00 init)
                none) (fd01 init) none) (fd10 init) none) (fd11 init) none,
        some (fd00 init, fd01 init), some (fd10 init, fd11 init),
        [.close (fd00 init) (some (.pipeRead 0)),
         .close (fd01 init) (some (.pipeWrite 0)),
         .close (fd10 init) (some (.pipeRead 1)),
         .dup2 (fd11 init) 1 (some (.pipeWrite 1)) (o .dupPsOut),
         .close (fd11 init) (some (.pipeWrite 1))]⟩ := by
  obtain ⟨h1, h2, h3⟩ := fd_order init
  rw [grandchildStart_eq]
  simp only [PState.forked]
  have e := greatGrandchildWiring_eq o (pipeTable (pipeTable (initTable init) 0) 1) []
    (fd00 init) (fd01 init) (fd10 init) (fd11 init) h1 h2 h3
    (by rw [grandchildStart_lookup, if_neg (by omega), if_neg (by omega), if_neg (by omega),
          if_pos rfl])
    (by rw [grandchildStart_lookup, if_neg (by omega), if_neg (by omega), if_pos rfl])
    (by rw [grandchildStart_lookup, if_neg (by omega), if_pos rfl])
    (by rw [grandchildStart_lookup, if_pos rfl])
  simp only [fd00, fd01, fd10, fd11] at e ⊢
  rw [e]
  simp

theorem lookup_ite (c : Prop) [Decidable c] (a b : FdTable) (d : Nat) :
    lookup (if c then a else b) d = if c then lookup a d else lookup b d := by
  split_ifs <;> rfl

theorem child_final_lookup (o : Oracle) (init : List (Option Nat)) (d : Nat) :
    lookup (childWiring o ((childStart init).emit (.fork true))).fdt d =
      if d = fd00 init then none
      else if o .dupWcIn = true ∧ d = 0 then some (.pipeRead 0)
      else if d = fd01 init then none
      else lookup (initTable init) d := by
  rw [child_final]
  have h1 := (fd_order init).1
  simp only [fd00, fd01] at h1 ⊢
  cases ha : o .dupWcIn <;>
    simp only [lookup_put, lookup_ite, lookup_pipeTable, ha] <;> split_ifs <;>
    first | rfl | omega | simp_all

theorem grandchild_final_lookup (o : Oracle) (init : List (Option Nat)) (d : Nat) :
    lookup (grandchildWiring o ((grandchildStart init).emit (.fork true))).fdt d =
      if d = fd01 init then none
      else if o .dupGrepOut = true ∧ d = 1 then some (.pipeWrite 0)
      else if d = fd00 init then none
      else if d = fd10 init then none
      else if o .dupGrepIn = true ∧ d = 0 then some (.pipeRead 1)
      else if d = fd11 init then none
      else lookup (initTable init) d := by
  rw [grandchild_final]
  obtain ⟨h1, h2, h3⟩ := fd_order init
  cases ha : o .dupGrepIn <;> cases hb : o .dupGrepOut <;>
    simp only [lookup_put, lookup_ite, grandchildStart_lookup, ha, hb, true_and, false_and,
      Bool.false_eq_true, if_false, ne_eq] <;>
    split_ifs <;> first | rfl | omega

theorem greatGrandchild_final_lookup (o : Oracle) (init : List (Option Nat)) (d : Nat) :
    lookup (greatGrandchildWiring o (grandchildStart init).forked).fdt d =
      if d = fd11 init then none
      else if o .dupPsOut = true ∧ d = 1 then some (.pipeWrite 1)
      else if d = fd10 init then none
      else if d = fd01 init then none
      else if d = fd00 init then none
      else lookup (initTable init) d := by
  rw [greatGrandchild_final]
  obtain ⟨h1, h2, h3⟩ := fd_order init
  cases ha : o .dupPsOut <;>
    simp only [lookup_put, lookup_ite, grandchildStart_lookup, ha] <;> split_ifs <;>
    first | rfl | omega | simp_all

theorem emit_fdt (s : PState) (e : Event) : (s.emit e).fdt = s.fdt := rfl

theorem emit_fds0 (s : PState) (e : Event) : (s.emit e).fds0 = s.fds0 := rfl

theorem emit_fds1 (s : PState) (e : Event) : (s.emit e).fds1 = s.fds1 := rfl

theorem emit_trace (s : PState) (e : Event) : (s.emit e).trace = s.trace ++ [e] := rfl

/-! ## Wiring of the pipeline -/

/-- C2. Started with descriptors 0 and 1 open and with every call succeeding, the run has
four processes, the last three of which become `wc`, `grep` and `ps`. When they exec,
descriptor 1 of `ps` is the write end and descriptor 0 of `grep` the read end of the pipe
in `fds[1]`; descriptor 1 of `grep` is the write end and descriptor 0 of `wc` the read end
of the pipe in `fds[0]`; descriptor 0 of `ps` and descriptor 1 of `wc` are what the
supervisor was started with. -/
theorem stages_wired_in_pipeline_order (argv : List String) (o : Oracle)
    (init : List (Option Nat)) (hlen : argv.length = 2) (hall : ∀ c, o c = true)
    (h0 : lookup (initTable init) STDIN_FILENO ≠ none)
    (h1 : lookup (initTable init) STDOUT_FILENO ≠ none) :
    ∃ sup wc grep ps, main argv o init = [sup, wc, grep, ps] ∧
      sup.role = .parent ∧
      wc.outcome.file = some "wc" ∧ grep.outcome.file = some "grep" ∧
      ps.outcome.file = some "ps" ∧
      lookup ps.st.fdt STDOUT_FILENO = some (.pipeWrite 1) ∧
      lookup grep.st.fdt STDIN_FILENO = some (.pipeRead 1) ∧
      lookup grep.st.fdt STDOUT_FILENO = some (.pipeWrite 0) ∧
      lookup wc.st.fdt STDIN_FILENO = some (.pipeRead 0) ∧
      lookup ps.st.fdt STDIN_FILENO = lookup (initTable init) STDIN_FILENO ∧
      lookup wc.st.fdt STDOUT_FILENO = lookup (initTable init) STDOUT_FILENO := by
  obtain ⟨a1, a2, a3, a4⟩ := fd_free init 0 h0
  obtain ⟨b1, b2, b3, b4⟩ := fd_free init 1 h1
  rw [main_allSucceed argv o init hlen hall]
  refine ⟨_, _, _, _, rfl, rfl, rfl, rfl, rfl, ?_, ?_, ?_, ?_, ?_, ?_⟩ <;>
    simp only [emit_fdt, STDIN_FILENO, STDOUT_FILENO]
  · rw [greatGrandchild_final_lookup]; simp [hall, b4]
  · rw [grandchild_final_lookup]; simp [hall, a1, a2, a3]
  · rw [grandchild_final_lookup]; simp [hall, b2]
  · rw [child_final_lookup]; simp [hall, a1]
  · rw [greatGrandchild_final_lookup]; simp [a1, a2, a3, a4]
  · rw [child_final_lookup]; simp [b1, b2]

theorem stages_wired_in_pipeline_order_witness :
    ∃ sup wc grep ps,
      main ["processes", "bash"] allSucceed [some 0, some 1, some 2] = [sup, wc, grep, ps] ∧
      sup.role = .parent ∧
      wc.outcome.file = some "wc" ∧ grep.outcome.file = some "grep" ∧
      ps.outcome.file = some "ps" ∧
      lookup ps.st.fdt STDOUT_FILENO = some (.pipeWrite 1) ∧
      lookup grep.st.fdt STDIN_FILENO = some (.pipeRead 1) ∧
      lookup grep.st.fdt STDOUT_FILENO = some (.pipeWrite 0) ∧
      lookup wc.st.fdt STDIN_FILENO = some (.pipeRead 0) ∧
      lookup ps.st.fdt STDIN_FILENO = lookup (initTable [some 0, some 1, some 2]) STDIN_FILENO ∧
      lookup wc.st.fdt STDOUT_FILENO =
        lookup (initTable [some 0, some 1, some 2]) STDOUT_FILENO :=
  stages_wired_in_pipeline_order ["processes", "bash"] allSucceed [some 0, some 1, some 2]
    (by decide) (fun _ => rfl) (by decide) (by decide)

/-- C10. Started with descriptor 0 closed and with every call succeeding, the child's
`pipe` stores 0 in `fds[0][0]`, `dup2(fds[0][0], 0)` changes nothing and
`close(fds[0][0])` closes descriptor 0: the process that becomes `wc -l` execs with
descriptor 0 closed, not open on the read end of the pipe. -/
theorem wc_stdin_closed_when_started_without_stdin (argv : List String) (o : Oracle)
    (init : List (Option Nat)) (hlen : argv.length = 2) (hall : ∀ c, o c = true)
    (h0 : lookup (initTable init) STDIN_FILENO = none) :
    ∃ p ∈ main argv o init, p.role = .child ∧ p.outcome = .image "wc" ["wc", "-l"] ∧
      (∃ w, p.st.fds0 = some (STDIN_FILENO, w)) ∧
      Event.dup2 STDIN_FILENO STDIN_FILENO (some (.pipeRead 0)) true ∈ p.st.trace ∧
      Event.close STDIN_FILENO (some (.pipeRead 0)) ∈ p.st.trace ∧
      lookup p.st.fdt STDIN_FILENO = none := by
  have hz : fd00 init = 0 := by
    by_contra hne
    have hlow : ∀ t : FdTable, lookup t 0 = none → lowestFree t = 0 := by
      intro t ht
      cases t with
      | nil => rfl
      | cons x t => cases x <;> simp_all [lookup, lowestFree]
    exact hne (hlow _ h0)
  rw [main_allSucceed argv o init hlen hall]
  refine ⟨_, List.mem_cons_of_mem _ (List.mem_cons_self _ _), rfl, rfl, ?_, ?_, ?_, ?_⟩
  · refine ⟨fd01 init, ?_⟩
    simp only [emit_fds0, child_final, STDIN_FILENO]
    exact congrArg some (Prod.ext hz rfl)
  · simp only [emit_trace, child_final, STDIN_FILENO]
    simp [hall, show (pipeFds (initTable init) 0).1 = 0 from hz]
  · simp only [emit_trace, child_final, STDIN_FILENO]
    simp [hall, show (pipeFds (initTable init) 0).1 = 0 from hz]
  · simp only [emit_fdt, STDIN_FILENO]
    rw [child_final_lookup, hz]; simp

theorem wc_stdin_closed_when_started_without_stdin_witness :
    ∃ p ∈ main ["processes", "bash"] allSucceed [none, some 1, some 2],
      p.role = .child ∧ p.outcome = .image "wc" ["wc", "-l"] ∧
      (∃ w, p.st.fds0 = some (STDIN_FILENO, w)) ∧
      Event.dup2 STDIN_FILENO STDIN_FILENO (some (.pipeRead 0)) true ∈ p.st.trace ∧
      Event.close STDIN_FILENO (some (.pipeRead 0)) ∈ p.st.trace ∧
      lookup p.st.fdt STDIN_FILENO = none :=
  wc_stdin_closed_when_started_without_stdin ["processes", "bash"] allSucceed
    [none, some 1, some 2] (by decide) (fun _ => rfl) (by decide)

/-! ## Every endpoint is held exactly once -/

theorem fd_closed_init (init : List (Option Nat)) :
    lookup (initTable init) (fd00 init) = none ∧ lookup (initTable init) (fd01 init) = none ∧
    lookup (initTable init) (fd10 init) = none ∧ lookup (initTable init) (fd11 init) = none := by
  obtain ⟨h1, h2, h3⟩ := fd_order init
  have c0 := pipeFds_fst_free (initTable init) 0
  have c1 := pipeFds_snd_free (initTable init) 0
  have c2 := pipeFds_fst_free (pipeTable (initTable init) 0) 1
  have c3 := pipeFds_snd_free (pipeTable (initTable init) 0) 1
  rw [lookup_pipeTable] at c2 c3
  simp only [fd00, fd01, fd10, fd11] at h1 h2 h3 ⊢
  rw [if_neg (by omega), if_neg (by omega)] at c2 c3
  exact ⟨c0, c1, c2, c3⟩

theorem allSucceed_endpoints (argv : List String) (o : Oracle) (init : List (Option Nat))
    (hlen : argv.length = 2) (hall : ∀ c, o c = true)
    (h0 : lookup (initTable init) STDIN_FILENO ≠ none)
    (h1 : lookup (initTable init) STDOUT_FILENO ≠ none) :
    ∀ p ∈ main argv o init, ∀ d,
      (lookup p.st.fdt d = some (.pipeWrite 0) ↔ p.role = .grandchild ∧ d = STDOUT_FILENO) ∧
      (lookup p.st.fdt d = some (.pipeRead 0) ↔ p.role = .child ∧ d = STDIN_FILENO) ∧
      (lookup p.st.fdt d = some (.pipeWrite 1) ↔
        p.role = .greatGrandchild ∧ d = STDOUT_FILENO) ∧
      (lookup p.st.fdt d = some (.pipeRead 1) ↔ p.role = .grandchild ∧ d = STDIN_FILENO) := by
  obtain ⟨a1, a2, a3, a4⟩ := fd_free init 0 h0
  obtain ⟨b1, b2, b3, b4⟩ := fd_free init 1 h1
  have nr := lookup_initTable_ne_pipeRead init
  have nw := lookup_initTable_ne_pipeWrite init
  intro p hp d
  rw [main_allSucceed argv o init hlen hall] at hp
  simp only [List.mem_cons, List.mem_singleton, List.not_mem_nil, or_false] at hp
  rcases hp with hp | hp | hp | hp <;> subst hp <;>
    simp only [emit_fdt, STDIN_FILENO, STDOUT_FILENO]
  · simp [nr, nw]
  · rw [child_final_lookup]
    simp only [hall, true_and]
    split_ifs with c1 c2 c3 <;> simp [nr, nw] <;> omega
  · rw [grandchild_final_lookup]
    simp only [hall, true_and]
    split_ifs with c1 c2 c3 c4 c5 c6 <;> simp [nr, nw] <;> omega
  · rw [greatGrandchild_final_lookup]
    simp only [hall, true_and]
    split_ifs with c1 c2 c3 c4 c5 <;> simp [nr, nw] <;> omega

theorem allSucceed_fds_closed (argv : List String) (o : Oracle) (init : List (Option Nat))
    (hlen : argv.length = 2) (hall : ∀ c, o c = true)
    (h0 : lookup (initTable init) STDIN_FILENO ≠ none)
    (h1 : lookup (initTable init) STDOUT_FILENO ≠ none) :
    ∀ p ∈ main argv o init, ∀ d,
      d = fd00 init ∨ d = fd01 init ∨ d = fd10 init ∨ d = fd11 init →
        lookup p.st.fdt d = none := by
  obtain ⟨a1, a2, a3, a4⟩ := fd_free init 0 h0
  obtain ⟨b1, b2, b3, b4⟩ := fd_free init 1 h1
  obtain ⟨c0, c1, c2, c3⟩ := fd_closed_init init
  intro p hp d hd
  rw [main_allSucceed argv o init hlen hall] at hp
  simp only [List.mem_cons, List.mem_singleton, List.not_mem_nil, or_false] at hp
  rcases hp with hp | hp | hp | hp <;> subst hp <;> simp only [emit_fdt]
  · rcases hd with hd | hd | hd | hd <;> subst hd <;> assumption
  · rw [child_final_lookup]
    simp only [hall, true_and]
    rcases hd with hd | hd | hd | hd <;> subst hd <;> split_ifs <;>
      first | rfl | assumption | omega
  · rw [grandchild_final_lookup]
    simp only [hall, true_and]
    rcases hd with hd | hd | hd | hd <;> subst hd <;> split_ifs <;>
      first | rfl | assumption | omega
  · rw [greatGrandchild_final_lookup]
    simp only [hall, true_and]
    rcases hd with hd | hd | hd | hd <;> subst hd <;> split_ifs <;>
      first | rfl | assumption | omega

theorem allSucceed_fds_rows (argv : List String) (o : Oracle) (init : List (Option Nat))
    (hlen : argv.length = 2) (hall : ∀ c, o c = true) :
    ∀ q ∈ main argv o init, ∀ r w,
      (q.st.fds0 = some (r, w) → r = fd00 init ∧ w = fd01 init) ∧
      (q.st.fds1 = some (r, w) → r = fd10 init ∧ w = fd11 init) := by
  intro q hq r w
  rw [main_allSucceed argv o init hlen hall] at hq
  simp only [List.mem_cons, List.mem_singleton, List.not_mem_nil, or_false] at hq
  rcases hq with hq | hq | hq | hq <;> subst hq <;>
    simp only [emit_fds0, emit_fds1, child_final, grandchild_final, greatGrandchild_final]
  · simp
  · simp only [fd00, fd01]
    constructor
    · intro h; cases h; exact ⟨rfl, rfl⟩
    · intro h; cases h
  · constructor <;> (intro h; cases h; exact ⟨rfl, rfl⟩)
  · constructor <;> (intro h; cases h; exact ⟨rfl, rfl⟩)

/-- C3. Started with descriptors 0 and 1 open and with every call succeeding, the tree has
one process per role and, when the stages have exec'd, across all four processes: the
write end of the pipe in `fds[0]` is open only as descriptor 1 of the grandchild (`grep`)
and its read end only as descriptor 0 of the child (`wc`); the write end of the pipe in
`fds[1]` is open only as descriptor 1 of the great-grandchild (`ps`) and its read end only
as descriptor 0 of the grandchild. Every descriptor number stored in any process's `fds`
is closed in every process, both rows of `fds` are set in the great-grandchild, and the
supervisor's table is the one it was started with, no `pipe`, `close` or `dup2` having been
performed by it. -/
theorem each_endpoint_held_once (argv : List String) (o : Oracle) (init : List (Option Nat))
    (hlen : argv.length = 2) (hall : ∀ c, o c = true)
    (h0 : lookup (initTable init) STDIN_FILENO ≠ none)
    (h1 : lookup (initTable init) STDOUT_FILENO ≠ none) :
    (main argv o init).map (fun p => (p.role, p.outcome.file)) =
      [(.parent, none), (.child, some "wc"), (.grandchild, some "grep"),
       (.greatGrandchild, some "ps")] ∧
    (∀ p ∈ main argv o init, ∀ d,
      (lookup p.st.fdt d = some (.pipeWrite 0) ↔ p.role = .grandchild ∧ d = STDOUT_FILENO) ∧
      (lookup p.st.fdt d = some (.pipeRead 0) ↔ p.role = .child ∧ d = STDIN_FILENO) ∧
      (lookup p.st.fdt d = some (.pipeWrite 1) ↔
        p.role = .greatGrandchild ∧ d = STDOUT_FILENO) ∧
      (lookup p.st.fdt d = some (.pipeRead 1) ↔ p.role = .grandchild ∧ d = STDIN_FILENO)) ∧
    (∀ p ∈ main argv o init, ∀ q ∈ main argv o init, ∀ r w,
      q.st.fds0 = some (r, w) ∨ q.st.fds1 = some (r, w) →
        lookup p.st.fdt r = none ∧ lookup p.st.fdt w = none) ∧
    (∃ q ∈ main argv o init, q.role = .greatGrandchild ∧
      q.st.fds0.isSome = true ∧ q.st.fds1.isSome = true) ∧
    (∀ p ∈ main argv o init, p.role = .parent →
      p.st.fdt = initTable init ∧ ∀ e ∈ p.st.trace, e.isSetup = true → e = .fork true) := by
  refine ⟨?_, allSucceed_endpoints argv o init hlen hall h0 h1, ?_, ?_, ?_⟩
  · rw [main_allSucceed argv o init hlen hall]
    simp [Outcome.file]
  · intro p hp q hq r w hrow
    have hc := allSucceed_fds_closed argv o init hlen hall h0 h1 p hp
    have hr := allSucceed_fds_rows argv o init hlen hall q hq r w
    rcases hrow with h | h
    · obtain ⟨e1, e2⟩ := hr.1 h
      exact ⟨hc r (Or.inl e1), hc w (Or.inr (Or.inl e2))⟩
    · obtain ⟨e1, e2⟩ := hr.2 h
      exact ⟨hc r (Or.inr (Or.inr (Or.inl e1))), hc w (Or.inr (Or.inr (Or.inr e2)))⟩
  · rw [main_allSucceed argv o init hlen hall]
    refine ⟨_, List.mem_cons_of_mem _ (List.mem_cons_of_mem _ (List.mem_cons_of_mem _
      (List.mem_cons_self _ _))), rfl, ?_, ?_⟩ <;>
      simp [emit_fds0, emit_fds1, greatGrandchild_final]
  · intro p hp hr
    rw [main_allSucceed argv o init hlen hall] at hp
    simp only [List.mem_cons, List.mem_singleton, List.not_mem_nil, or_false] at hp
    rcases hp with hp | hp | hp | hp <;> subst hp <;> simp at hr
    simp [Event.isSetup, Event.isFdOp]

theorem each_endpoint_held_once_witness :
    (main ["processes", "bash"] allSucceed [some 0, some 1, some 2]).map
        (fun p => (p.role, p.outcome.file)) =
      [(.parent, none), (.child, some "wc"), (.grandchild, some "grep"),
       (.greatGrandchild, some "ps")] ∧
    (∀ p ∈ main ["processes", "bash"] allSucceed [some 0, some 1, some 2], ∀ d,
      (lookup p.st.fdt d = some (.pipeWrite 0) ↔ p.role = .grandchild ∧ d = STDOUT_FILENO) ∧
      (lookup p.st.fdt d = some (.pipeRead 0) ↔ p.role = .child ∧ d = STDIN_FILENO) ∧
      (lookup p.st.fdt d = some (.pipeWrite 1) ↔
        p.role = .greatGrandchild ∧ d = STDOUT_FILENO) ∧
      (lookup p.st.fdt d = some (.pipeRead 1) ↔ p.role = .grandchild ∧ d = STDIN_FILENO)) ∧
    (∀ p ∈ main ["processes", "bash"] allSucceed [some 0, some 1, some 2],
      ∀ q ∈ main ["processes", "bash"] allSucceed [some 0, some 1, some 2], ∀ r w,
      q.st.fds0 = some (r, w) ∨ q.st.fds1 = some (r, w) →
        lookup p.st.fdt r = none ∧ lookup p.st.fdt w = none) ∧
    (∃ q ∈ main ["processes", "bash"] allSucceed [some 0, some 1, some 2],
      q.role = .greatGrandchild ∧ q.st.fds0.isSome = true ∧ q.st.fds1.isSome = true) ∧
    (∀ p ∈ main ["processes", "bash"] allSucceed [some 0, some 1, some 2], p.role = .parent →
      p.st.fdt = initTable [some 0, some 1, some 2] ∧
        ∀ e ∈ p.st.trace, e.isSetup = true → e = .fork true) :=
  each_endpoint_held_once ["processes", "bash"] allSucceed [some 0, some 1, some 2]
    (by decide) (fun _ => rfl) (by decide) (by decide)

/-! ## Only held pipe endpoints are closed or duplicated -/

theorem child_final_held (o : Oracle) (init : List (Option Nat)) :
    heldOnly (childWiring o ((childStart init).emit (.fork true))) := by
  rw [child_final]
  simp [heldOnly, TraceAll, Event.onHeldPipeEnd, File.isPipeEnd]

theorem grandchild_final_held (o : Oracle) (init : List (Option Nat)) :
    heldOnly (grandchildWiring o ((grandchildStart init).emit (.fork true))) := by
  rw [grandchild_final]
  simp only [heldOnly, TraceAll]
  split_ifs <;> simp [Event.onHeldPipeEnd, File.isPipeEnd]

theorem greatGrandchild_final_held (o : Oracle) (init : List (Option Nat)) :
    heldOnly (greatGrandchildWiring o (grandchildStart init).forked) := by
  rw [greatGrandchild_final]
  simp [heldOnly, TraceAll, Event.onHeldPipeEnd, File.isPipeEnd]

theorem heldOnly_execlp (s : PState) (ok : Bool) (r : Role) (b : Option Role) (f : String)
    (a : List String) (m : String) (h : heldOnly s) : heldOnly (s.execlp ok r b f a m).st :=
  traceAll_execlp _ s ok r b f a m h (fun _ => rfl) rfl rfl

theorem grandchild_held (argv : List String) (o : Oracle) (init : List (Option Nat)) :
    ∀ p ∈ grandchild argv o (childStart init).forked, heldOnly p.st := by
  intro p hp
  cases h1 : o .pipe1 with
  | false =>
    simp [grandchild, h1, PState.exit] at hp
    subst hp
    simp [heldOnly, TraceAll, PState.emit, PState.pipe, PState.forked, Event.onHeldPipeEnd]
  | true =>
    cases h2 : o .fork3 with
    | false =>
      simp [grandchild, h1, h2, PState.exit] at hp
      subst hp
      simp [heldOnly, TraceAll, PState.emit, PState.pipe, PState.forked, Event.onHeldPipeEnd]
    | true =>
      rw [grandchild_eq argv o _ h1 h2, greatGrandchild_eq] at hp
      simp only [List.mem_cons, List.mem_singleton, List.not_mem_nil, or_false] at hp
      rcases hp with hp | hp <;> subst hp
      · exact heldOnly_execlp _ _ _ _ _ _ _ (grandchild_final_held o init)
      · exact heldOnly_execlp _ _ _ _ _ _ _ (greatGrandchild_final_held o init)

theorem child_held (argv : List String) (o : Oracle) (init : List (Option Nat)) :
    ∀ p ∈ child argv o (start init).forked, heldOnly p.st := by
  intro p hp
  cases h1 : o .pipe0 with
  | false =>
    simp [child, h1, PState.exit] at hp
    subst hp
    simp [heldOnly, TraceAll, PState.emit, PState.pipe, PState.forked, Event.onHeldPipeEnd]
  | true =>
    cases h2 : o .fork2 with
    | false =>
      simp [child, h1, h2, PState.exit] at hp
      subst hp
      simp [heldOnly, TraceAll, PState.emit, PState.pipe, PState.forked, Event.onHeldPipeEnd]
    | true =>
      rw [child_eq argv o _ h1 h2] at hp
      simp only [List.mem_cons] at hp
      rcases hp with hp | hp
      · subst hp
        exact heldOnly_execlp _ _ _ _ _ _ _ (child_final_held o init)
      · exact grandchild_held argv o init p hp

theorem main_held (argv : List String) (o : Oracle) (init : List (Option Nat)) :
    ∀ p ∈ main argv o init, heldOnly p.st := by
  intro p hp
  by_cases hlen : argv.length = 2
  · cases h1 : o .fork1 with
    | false =>
      simp [main, hlen, h1, PState.ret] at hp
      subst hp
      simp [heldOnly, TraceAll, PState.emit, Event.onHeldPipeEnd]
    | true =>
      rw [main_of_fork1 argv o init hlen h1] at hp
      simp only [List.mem_cons] at hp
      rcases hp with hp | hp
      · subst hp
        simp [heldOnly, TraceAll, Event.onHeldPipeEnd]
      · exact child_held argv o init p hp
  · simp [main, hlen, PState.exit] at hp
    subst hp
    simp [heldOnly, TraceAll, PState.emit, Event.onHeldPipeEnd]

/-! ## Pipes are made before the forks that pass them on -/

theorem execlp_fields (s : PState) (ok : Bool) (r : Role) (b : Option Role) (f : String)
    (a : List String) (m : String) :
    (s.execlp ok r b f a m).role = r ∧ (s.execlp ok r b f a m).forkedBy = b ∧
    (s.execlp ok r b f a m).st.fds0 = s.fds0 ∧ (s.execlp ok r b f a m).st.fds1 = s.fds1 ∧
    ∃ tl, (s.execlp ok r b f a m).st.trace = s.trace ++ tl := by
  cases ok
  · rw [execlp_false]; exact ⟨rfl, rfl, rfl, rfl, _, rfl⟩
  · exact ⟨rfl, rfl, rfl, rfl, _, rfl⟩

theorem child_proc_fields (o : Oracle) (init : List (Option Nat)) (ok : Bool)
    (f : String) (a : List String) (m : String) :
    ((childWiring o ((childStart init).emit (.fork true))).execlp ok .child (some .parent)
        f a m).st.fds0 = some (fd00 init, fd01 init) ∧
    ∃ tl, ((childWiring o ((childStart init).emit (.fork true))).execlp ok .child
        (some .parent) f a m).st.trace =
      .pipe 0 (some (fd00 init, fd01 init)) :: .fork true :: tl := by
  obtain ⟨-, -, h3, -, tl, h5⟩ := execlp_fields
    (childWiring o ((childStart init).emit (.fork true))) ok .child (some .parent) f a m
  constructor
  · exact h3.trans (congrArg PState.fds0 (child_final o init))
  · rw [h5, congrArg PState.trace (child_final o init)]
    exact ⟨_, rfl⟩

theorem grandchild_proc_fields (o : Oracle) (init : List (Option Nat)) (ok : Bool)
    (f : String) (a : List String) (m : String) :
    ((grandchildWiring o ((grandchildStart init).emit (.fork true))).execlp ok .grandchild
        (some .child) f a m).st.fds0 = some (fd00 init, fd01 init) ∧
    ∃ tl, ((grandchildWiring o ((grandchildStart init).emit (.fork true))).execlp ok
        .grandchild (some .child) f a m).st.trace =
      .pipe 1 (some (fd10 init, fd11 init)) :: .fork true :: tl := by
  obtain ⟨-, -, h3, -, tl, h5⟩ := execlp_fields
    (grandchildWiring o ((grandchildStart init).emit (.fork true))) ok .grandchild
    (some .child) f a m
  constructor
  · exact h3.trans (congrArg PState.fds0 (grandchild_final o init))
  · rw [h5, congrArg PState.trace (grandchild_final o init)]
    exact ⟨_, rfl⟩

theorem greatGrandchild_proc_fields (o : Oracle) (init : List (Option Nat)) (ok : Bool)
    (f : String) (a : List String) (m : String) :
    ((greatGrandchildWiring o (grandchildStart init).forked).execlp ok .greatGrandchild
        (some .grandchild) f a m).st.fds0 = some (fd00 init, fd01 init) ∧
    ((greatGrandchildWiring o (grandchildStart init).forked).execlp ok .greatGrandchild
        (some .grandchild) f a m).st.fds1 = some (fd10 init, fd11 init) := by
  obtain ⟨-, -, h3, h4, -⟩ := execlp_fields
    (greatGrandchildWiring o (grandchildStart init).forked) ok .greatGrandchild
    (some .grandchild) f a m
  exact ⟨h3.trans (congrArg PState.fds0 (greatGrandchild_final o init)),
    h4.trans (congrArg PState.fds1 (greatGrandchild_final o init))⟩

theorem grandchild_inherits (argv : List String) (o : Oracle) (init : List (Option Nat)) :
    ∀ p ∈ grandchild argv o (childStart init).forked,
      p.forkedBy ≠ some .parent ∧
      p.st.fds0 = some (fd00 init, fd01 init) ∧
      (p.forkedBy = some .grandchild →
        p.st.fds1 = some (fd10 init, fd11 init) ∧
        ∃ q ∈ grandchild argv o (childStart init).forked, q.role = .grandchild ∧
          q.st.fds0 = some (fd00 init, fd01 init) ∧
          ∃ tl, q.st.trace = .pipe 1 (some (fd10 init, fd11 init)) :: .fork true :: tl) := by
  intro p hp
  cases h1 : o .pipe1 with
  | false =>
    simp [grandchild, h1, PState.exit] at hp
    subst hp
    simp [PState.emit, PState.pipe, PState.forked, childStart_eq, fd00, fd01]
  | true =>
    cases h2 : o .fork3 with
    | false =>
      simp [grandchild, h1, h2, PState.exit] at hp
      subst hp
      simp [PState.emit, PState.pipe, PState.forked, childStart_eq, fd00, fd01]
    | true =>
      rw [grandchild_eq argv o _ h1 h2, greatGrandchild_eq] at hp ⊢
      obtain ⟨g3, tl, g5⟩ := grandchild_proc_fields o init (o .execGrep) "grep"
        ["grep", argv.getD 1 ""] "execlp grep failed"
      obtain ⟨q3, q4⟩ := greatGrandchild_proc_fields o init (o .execPs) "ps" ["ps", "aux"]
        "execlp ps failed"
      obtain ⟨g1, g2, -⟩ := execlp_fields
        (grandchildWiring o ((grandchildStart init).emit (.fork true))) (o .execGrep)
        .grandchild (some .child) "grep" ["grep", argv.getD 1 ""] "execlp grep failed"
      obtain ⟨-, q2, -⟩ := execlp_fields
        (greatGrandchildWiring o (grandchildStart init).forked) (o .execPs)
        .greatGrandchild (some .grandchild) "ps" ["ps", "aux"] "execlp ps failed"
      simp only [List.mem_cons, List.mem_singleton, List.not_mem_nil, or_false] at hp
      rcases hp with hp | hp <;> subst hp
      · refine ⟨?_, g3, ?_⟩
        · intro h; exact absurd (g2.symm.trans h) (by simp)
        · intro h; exact absurd (g2.symm.trans h) (by simp)
      · refine ⟨?_, q3, fun _ => ⟨q4, _, List.mem_cons_self _ _, g1, g3, tl, g5⟩⟩
        intro h; exact absurd (q2.symm.trans h) (by simp)

theorem child_inherits (argv : List String) (o : Oracle) (init : List (Option Nat)) :
    ∀ p ∈ child argv o (start init).forked,
      (p.forkedBy = some .child →
        ∃ q ∈ child argv o (start init).forked, q.role = .child ∧
          ∃ rw tl, q.st.trace = .pipe 0 (some rw) :: .fork true :: tl ∧
            p.st.fds0 = some rw) ∧
      (p.forkedBy = some .grandchild →
        ∃ q ∈ child argv o (start init).forked, q.role = .grandchild ∧
          ∃ rw tl, q.st.trace = .pipe 1 (some rw) :: .fork true :: tl ∧
            p.st.fds1 = some rw ∧ p.st.fds0 = q.st.fds0 ∧ q.st.fds0.isSome = true) := by
  intro p hp
  cases h1 : o .pipe0 with
  | false =>
    simp [child, h1, PState.exit] at hp
    subst hp
    simp
  | true =>
    cases h2 : o .fork2 with
    | false =>
      simp [child, h1, h2, PState.exit] at hp
      subst hp
      simp
    | true =>
      rw [child_eq argv o _ h1 h2] at hp ⊢
      obtain ⟨-, tl, c5⟩ := child_proc_fields o init (o .execWc) "wc" ["wc", "-l"]
        "execlp wc failed"
      obtain ⟨c1, c2, -⟩ := execlp_fields
        (childWiring o ((childStart init).emit (.fork true))) (o .execWc)
        .child (some .parent) "wc" ["wc", "-l"] "execlp wc failed"
      simp only [List.mem_cons] at hp
      rcases hp with hp | hp
      · subst hp
        constructor <;> (intro h; exact absurd (c2.symm.trans h) (by simp))
      · obtain ⟨-, i1, i2⟩ := grandchild_inherits argv o init p hp
        constructor
        · intro _
          exact ⟨_, List.mem_cons_self _ _, c1, _, tl, c5, i1⟩
        · intro h
          obtain ⟨j1, q, hq, j2, j3, tl', j4⟩ := i2 h
          exact ⟨q, List.mem_cons_of_mem _ hq, j2, _, tl', j4, j1, by rw [i1, j3],
            by rw [j3]; rfl⟩

/-- C9. In every run of `main`, whatever the arguments, the outcome of each call and the
descriptors it is started with: no process reads an entry of `fds` that no `pipe` call has
stored into, and every `close` and `dup2` it performs names a descriptor that is open at
that moment and refers to an endpoint of a pipe. A process forked by the child has in
`fds[0]` the pair returned by the child's successful `pipe(fds[0])`, which the child
performed before that `fork`; a process forked by the grandchild has in `fds[1]` the pair
returned by the grandchild's successful `pipe(fds[1])`, performed before that `fork`, and
in `fds[0]` the pair the grandchild itself inherited. -/
theorem pipes_precede_forks (argv : List String) (o : Oracle) (init : List (Option Nat)) :
    (∀ p ∈ main argv o init, ∀ e ∈ p.st.trace, e.onHeldPipeEnd = true) ∧
    (∀ p ∈ main argv o init,
      (p.forkedBy = some .child →
        ∃ q ∈ main argv o init, q.role = .child ∧
          ∃ rw tl, q.st.trace = .pipe 0 (some rw) :: .fork true :: tl ∧
            p.st.fds0 = some rw) ∧
      (p.forkedBy = some .grandchild →
        ∃ q ∈ main argv o init, q.role = .grandchild ∧
          ∃ rw tl, q.st.trace = .pipe 1 (some rw) :: .fork true :: tl ∧
            p.st.fds1 = some rw ∧ p.st.fds0 = q.st.fds0 ∧ q.st.fds0.isSome = true)) := by
  refine ⟨main_held argv o init, ?_⟩
  intro p hp
  by_cases hlen : argv.length = 2
  · cases h1 : o .fork1 with
    | false =>
      simp [main, hlen, h1, PState.ret] at hp
      subst hp
      simp
    | true =>
      rw [main_of_fork1 argv o init hlen h1] at hp ⊢
      simp only [List.mem_cons] at hp
      rcases hp with hp | hp
      · subst hp
        simp
      · obtain ⟨k1, k2⟩ := child_inherits argv o init p hp
        constructor
        · intro h
          obtain ⟨q, hq, r⟩ := k1 h
          exact ⟨q, List.mem_cons_of_mem _ hq, r⟩
        · intro h
          obtain ⟨q, hq, r⟩ := k2 h
          exact ⟨q, List.mem_cons_of_mem _ hq, r⟩
  · simp [main, hlen, PState.exit] at hp
    subst hp
    simp

theorem pipes_precede_forks_witness :
    (∀ p ∈ main ["processes", "bash"] allSucceed [some 0, some 1, some 2],
      ∀ e ∈ p.st.trace, e.onHeldPipeEnd = true) ∧
    (∃ p ∈ main ["processes", "bash"] allSucceed [some 0, some 1, some 2],
      p.forkedBy = some .child ∧
        ∃ q ∈ main ["processes", "bash"] allSucceed [some 0, some 1, some 2],
          q.role = .child ∧
          ∃ rw tl, q.st.trace = .pipe 0 (some rw) :: .fork true :: tl ∧
            p.st.fds0 = some rw) ∧
    (∃ p ∈ main ["processes", "bash"] allSucceed [some 0, some 1, some 2],
      p.forkedBy = some .grandchild ∧
        ∃ q ∈ main ["processes", "bash"] allSucceed [some 0, some 1, some 2],
          q.role = .grandchild ∧
          ∃ rw tl, q.st.trace = .pipe 1 (some rw) :: .fork true :: tl ∧
            p.st.fds1 = some rw ∧ p.st.fds0 = q.st.fds0 ∧ q.st.fds0.isSome = true) := by
  have h := pipes_precede_forks ["processes", "bash"] allSucceed [some 0, some 1, some 2]
  have e1 : ∃ p ∈ main ["processes", "bash"] allSucceed [some 0, some 1, some 2],
      p.forkedBy = some Role.child := by decide
  have e2 : ∃ p ∈ main ["processes", "bash"] allSucceed [some 0, some 1, some 2],
      p.forkedBy = some Role.grandchild := by decide
  obtain ⟨p1, m1, f1⟩ := e1
  obtain ⟨p2, m2, f2⟩ := e2
  exact ⟨h.1, ⟨p1, m1, f1, (h.2 p1 m1).1 f1⟩, ⟨p2, m2, f2, (h.2 p2 m2).2 f2⟩⟩

end Processes
